import Mathlib

/-!
# Verification of the VQBayesOpt conjugate-gradient core

This file is a shallow embedding, in Lean 4 over exact rational arithmetic, of the
two numerical components of the repository:

* `src/linalg/preconditioned_conjugate_gradient.py` — the function `pcg`
  (implicit-inverse preconditioned CG, building an approximation `C` of `A⁻¹`)
  and the function `mat_inv_lemma` (Woodbury identity);
* `src/solver/classic/pcg.py` — the method `PCG.solve`
  (classic preconditioned CG with an explicit preconditioner matrix `M`).

Modelling conventions:

* NumPy float arrays are idealized as exact rational vectors `Fin n → ℚ` and
  matrices `Matrix (Fin n) (Fin n) ℚ`; numeric literals of the source
  (`0.1**2`, `1e-6`, ...) are read as the exact rationals they denote.
* `np.linalg.inv` is modelled by `matInv A = A.det⁻¹ • A.adjugate`, which over
  the field ℚ agrees with Mathlib's `A⁻¹` (`matInv_eq_inv`); for a singular
  argument NumPy raises `LinAlgError` while `matInv` returns the junk value `0`
  — no claim below depends on the value at a singular argument.
  `np.linalg.solve M r` is modelled as `matInv M *ᵥ r` (`npSolve`).
* Rational division is total with `x / 0 = 0`; in floats, division of the
  `pcg` loop by a zero normalization constant `eta` would give `inf`/`nan`
  without raising.  The degenerate `eta = 0` step therefore leaves `x` and `C`
  unchanged in this model (this only occurs after exact convergence, where the
  loop then exits).
* Comparisons of Euclidean norms (`np.linalg.norm(r) > tol`,
  `np.sqrt(delta_new) > tol`) are encoded with rational arithmetic by
  comparing squares, see `sqrtGT` and `normGT`; the lemmas `sqrtGT_iff_real`
  and `normGT_iff_real` prove these encodings equal to the intended
  real-number comparisons (with `nan > tol` false, as in NumPy, when the
  radicand is negative).
* Python `while` loops are modelled by structurally recursive functions with a
  fuel parameter; `none` means the fuel was insufficient.  `PCG.solve` raises
  exceptions and mutates its instance, so it is modelled as returning a
  `SolveResult` recording the error raised (if any) and the final values of
  the instance fields `x` and `iters`.
* The assertion helpers of `src/utils/assertions.py` and the `Solver` base
  class are not part of the given sources; where a claim depends on them they
  are modelled from the spec (doc strings say so explicitly).
-/

open Matrix

/-- Model of the dense-inverse primitive `np.linalg.inv` over exact arithmetic:
`A.det⁻¹ • A.adjugate`, a computable form of Mathlib's `A⁻¹` (see
`matInv_eq_inv`).  NumPy raises on a singular argument; here the junk value
`0 • adjugate = 0` is returned instead. -/
def matInv {n : ℕ} (A : Matrix (Fin n) (Fin n) ℚ) : Matrix (Fin n) (Fin n) ℚ :=
  (A.det)⁻¹ • A.adjugate

lemma matInv_eq_inv {n : ℕ} (A : Matrix (Fin n) (Fin n) ℚ) : matInv A = A⁻¹ := by
  rw [matInv, Matrix.inv_def, Ring.inverse_eq_inv']

lemma matInv_one {n : ℕ} : matInv (1 : Matrix (Fin n) (Fin n) ℚ) = 1 := by
  rw [matInv_eq_inv]
  exact Matrix.inv_eq_right_inv (by rw [Matrix.one_mul])

/-- Model of `np.linalg.solve M r`: the exact solution `M⁻¹ r` of `M z = r`
for invertible `M` (junk `0` for singular `M`, where NumPy raises). -/
def npSolve {n : ℕ} (M : Matrix (Fin n) (Fin n) ℚ) (r : Fin n → ℚ) : Fin n → ℚ :=
  (matInv M).mulVec r

/-- `mat_inv_lemma` from `src/linalg/preconditioned_conjugate_gradient.py`,
lines 85-119: `invA = inv(A)`, `invC = inv(C)`, `a = invA @ U`,
`b = inv(invC + V.T @ (invA @ U))`, `c = V.T @ invA`,
returning `invA - a @ (b @ c)`. -/
def mat_inv_lemma {n k : ℕ} (A : Matrix (Fin n) (Fin n) ℚ) (U : Matrix (Fin n) (Fin k) ℚ)
    (C : Matrix (Fin k) (Fin k) ℚ) (V : Matrix (Fin n) (Fin k) ℚ) :
    Matrix (Fin n) (Fin n) ℚ :=
  let invA := matInv A
  let invC := matInv C
  let a := invA * U
  let b := matInv (invC + V.transpose * (invA * U))
  let c := V.transpose * invA
  invA - a * (b * c)

/-- Squared Euclidean norm of a rational vector. -/
def normSq {n : ℕ} (v : Fin n → ℚ) : ℚ := Matrix.dotProduct v v

lemma normSq_nonneg {n : ℕ} (v : Fin n → ℚ) : 0 ≤ normSq v :=
  Finset.sum_nonneg fun i _ => mul_self_nonneg (v i)

/-- Rational encoding of the float comparison `np.sqrt delta > tol`.
For `delta ≥ 0` it is `√delta > tol` (compare squares when `tol ≥ 0`); for
`delta < 0`, `np.sqrt` yields `nan` and the comparison is false. -/
def sqrtGT (delta tol : ℚ) : Bool :=
  if delta < 0 then false
  else if tol < 0 then true
  else decide (tol ^ 2 < delta)

/-- Rational encoding of `np.linalg.norm r > max (rtol * np.linalg.norm b) atol`
in terms of the squared norms `rsq = ‖r‖²` and `bsq = ‖b‖²`:
`‖r‖` exceeds the max iff it exceeds both arms, each arm being compared via
squares with the signs handled separately. -/
def normGT (rsq rtol atol bsq : ℚ) : Bool :=
  (if bsq = 0 ∨ rtol = 0 then decide (0 < rsq)
   else if rtol < 0 then true
   else decide (rtol ^ 2 * bsq < rsq)) &&
  (if atol < 0 then true else decide (atol ^ 2 < rsq))

/-! ## Embedding of `pcg` (implicit-inverse variant, §4.2 of the spec) -/

/-- Loop state of `pcg`: solution estimate `x`, inverse estimate `C`, the
residual vector `r` as last assigned, and the iteration counter `i`. -/
@[ext]
structure PcgState (n : ℕ) where
  x : Fin n → ℚ
  C : Matrix (Fin n) (Fin n) ℚ
  r : Fin n → ℚ
  i : ℕ

/-- The initial preconditioner inverse of `pcg`, lines 59-62:
`mat_inv_lemma(A=np.eye(n) * 0.1**2, U=P, C=np.eye(p), V=P)`. -/
def pcg_invP {n p : ℕ} (P : Matrix (Fin n) (Fin p) ℚ) : Matrix (Fin n) (Fin n) ℚ :=
  mat_inv_lemma (((1 : ℚ)/10) ^ 2 • 1) P 1 P

/-- State of `pcg` before the first loop check, lines 64-67:
`x = 0`, `C = 0`, `r = b - A @ x`, `i = 0`. -/
def pcgInit {n : ℕ} (A : Matrix (Fin n) (Fin n) ℚ) (b : Fin n → ℚ) : PcgState n :=
  let x : Fin n → ℚ := 0
  { x := x, C := 0, r := b - A.mulVec x, i := 0 }

/-- One body of the `pcg` loop, lines 70-77.  Note that `r` is recomputed from
the state's `x` before `x` is updated, so the `r` stored in the new state is
the residual of the previous iterate. -/
def pcgStep {n : ℕ} (A invP : Matrix (Fin n) (Fin n) ℚ) (b : Fin n → ℚ)
    (st : PcgState n) : PcgState n :=
  let r := b - A.mulVec st.x
  let s := invP.mulVec r
  let alpha := Matrix.dotProduct s r
  let d := ((1 : Matrix (Fin n) (Fin n) ℚ) - st.C * A).mulVec s
  let eta := Matrix.dotProduct s (A.mulVec d)
  { x := st.x + (alpha / eta) • d
    C := st.C + (1 / eta) • Matrix.vecMulVec d d
    r := r
    i := st.i + 1 }

/-- The loop condition of `pcg`, line 69: `np.linalg.norm(r) > tol` with
`tol = max(rtol * np.linalg.norm(b), atol)` (line 68; `tol` is fixed before
the loop, so recomputing it here from `b` is equivalent). -/
def pcgGuard {n : ℕ} (rtol atol : ℚ) (b : Fin n → ℚ) (st : PcgState n) : Bool :=
  normGT (normSq st.r) rtol atol (normSq b)

/-- The `while` loop of `pcg`, lines 69-80: while the guard holds run a body,
then return `(x, C)` as soon as `i == maxiter` (the `raise` on line 79 is
commented out in the source); when the guard fails return `(x, C)`.
`fuel` bounds the number of bodies; `none` means it was exhausted (for
`maxiter = 0` the Python loop can run an unbounded number of iterations). -/
def pcgLoop {n : ℕ} (A invP : Matrix (Fin n) (Fin n) ℚ) (b : Fin n → ℚ)
    (maxiter : ℕ) (rtol atol : ℚ) :
    ℕ → PcgState n → Option ((Fin n → ℚ) × Matrix (Fin n) (Fin n) ℚ)
  | 0, _ => none
  | fuel + 1, st =>
    if pcgGuard rtol atol b st then
      let st' := pcgStep A invP b st
      if st'.i = maxiter then some (st'.x, st'.C)
      else pcgLoop A invP b maxiter rtol atol fuel st'
    else some (st.x, st.C)

/-- The function `pcg(A, b, maxiter, rtol, atol, P)`, lines 4-82.
Defaults: `maxiter = 10 * n` when absent; the preconditioner factor `P` is
explicit here (the source defaults it to `np.eye(n)`, i.e. `p = n`, `P = 1`);
`rtol`/`atol` default to `1e-6` in the source.  The returned pair is
`(x, C)`; the Python function raises no exception on any return path. -/
def pcg {n p : ℕ} (A : Matrix (Fin n) (Fin n) ℚ) (b : Fin n → ℚ)
    (maxiter? : Option ℕ) (rtol atol : ℚ) (P : Matrix (Fin n) (Fin p) ℚ)
    (fuel : ℕ) : Option ((Fin n → ℚ) × Matrix (Fin n) (Fin n) ℚ) :=
  let maxiter := maxiter?.getD (10 * n)
  let invP := pcg_invP P
  pcgLoop A invP b maxiter rtol atol fuel (pcgInit A b)

/-- The state of `pcg` after `k` loop bodies (ignoring the exit conditions). -/
def pcgIter {n p : ℕ} (A : Matrix (Fin n) (Fin n) ℚ) (b : Fin n → ℚ)
    (P : Matrix (Fin n) (Fin p) ℚ) (k : ℕ) : PcgState n :=
  (pcgStep A (pcg_invP P) b)^[k] (pcgInit A b)

/-! ## Embedding of `PCG.solve` (explicit-preconditioner variant, §4.3) -/

/-- The error kinds of §7 of the spec.  In the Python source, `PCG.solve`
raises `BaseException("no convergence")` on its non-convergence path (line
54); the spec names this kind `NonConvergenceError`.  The other three kinds
are raised by the assertion helpers of `src/utils/assertions.py` (not under
`src/`; modelled from the spec §4.3/§7). -/
inductive SolverError where
  | missingOperand
  | shape
  | singular
  | nonConvergence
deriving DecidableEq

/-- Loop state of `PCG.solve`: iterate `x`, residual `r`, preconditioned
residual `z`, search direction `d`, squared (preconditioned) residual
`delta`, and iteration counter `i`. -/
@[ext]
structure CGState (n : ℕ) where
  x : Fin n → ℚ
  r : Fin n → ℚ
  z : Fin n → ℚ
  d : Fin n → ℚ
  delta : ℚ
  i : ℕ

/-- State of `PCG.solve` before the loop, lines 35-40: `x = 0`,
`r = b - A @ x`, `z = solve(M, r)`, `d = z`, `delta_new = r.T @ z`, `i = 0`. -/
def solveInit {n : ℕ} (A M : Matrix (Fin n) (Fin n) ℚ) (b : Fin n → ℚ) : CGState n :=
  let x : Fin n → ℚ := 0
  let r := b - A.mulVec x
  let z := npSolve M r
  { x := x, r := r, z := z, d := z, delta := Matrix.dotProduct r z, i := 0 }

/-- One body of the `PCG.solve` loop, lines 42-51. -/
def solveStep {n : ℕ} (A M : Matrix (Fin n) (Fin n) ℚ) (st : CGState n) : CGState n :=
  let q := A.mulVec st.d
  let alpha := st.delta / Matrix.dotProduct st.d q
  let x := st.x + alpha • st.d
  let r := st.r - alpha • q
  let z := npSolve M r
  let delta' := Matrix.dotProduct r z
  let beta := delta' / st.delta
  { x := x, r := r, z := z, d := z + beta • st.d, delta := delta', i := st.i + 1 }

/-- Result of a call to `PCG.solve`: the exception raised (if any) and the
final values of the instance fields `self.x` and `self.iters` (`none` when
the field was never assigned during the call; `self.iters` is `None` after
`__init__`). -/
structure SolveResult (n : ℕ) where
  err : Option SolverError
  x : Option (Fin n → ℚ)
  iters : Option ℕ

/-- The `while` loop of `PCG.solve`, lines 41-55: loop while
`sqrt(delta_new) > tol` and `i < maxiter`; after a body, if `i == maxiter`
set `self.iters = maxiter` and raise the non-convergence error (the iterate
`self.x` keeps the value just computed); on normal exit set `self.iters = i`. -/
def solveLoop {n : ℕ} (A M : Matrix (Fin n) (Fin n) ℚ) (maxiter : ℕ) (tol : ℚ) :
    ℕ → CGState n → Option (SolveResult n)
  | 0, _ => none
  | fuel + 1, st =>
    if sqrtGT st.delta tol ∧ st.i < maxiter then
      let st' := solveStep A M st
      if st'.i = maxiter then some ⟨some .nonConvergence, some st'.x, some maxiter⟩
      else solveLoop A M maxiter tol fuel st'
    else some ⟨none, some st.x, some st.i⟩

/-- The state of `PCG.solve` after `k` loop bodies. -/
def solveIter {n : ℕ} (A M : Matrix (Fin n) (Fin n) ℚ) (b : Fin n → ℚ) (k : ℕ) :
    CGState n :=
  (solveStep A M)^[k] (solveInit A M b)

/-- Modelled from the spec: the precondition checks run by `PCG.solve`
(lines 22-27) in source order — `assert_not_none(A)`, `assert_not_none(b)`,
`assert_square(A)`, `assert_not_singular(A)` — where the helpers
`assert_not_none`, `assert_square`, `assert_not_singular` of
`src/utils/assertions.py` are not under `src/` and are modelled from spec
§4.3/§7: unset operand ↦ `MissingOperandError`, non-square `A` ↦
`ShapeError`, singular `A` ↦ `SingularMatrixError`.  The commented-out
`assert_symmetric` and `assert_positive_definite` (lines 24 and 27) perform
no check.  `A` is a general `m × k` matrix here so that the squareness check
is meaningful; `some e` is the first failing check, `none` means all pass. -/
def solveChecks (m k : ℕ) (A? : Option (Matrix (Fin m) (Fin k) ℚ))
    (b? : Option (Fin m → ℚ)) : Option SolverError :=
  match A? with
  | none => some .missingOperand
  | some A =>
    match b? with
    | none => some .missingOperand
    | some _ =>
      if h : m = k then
        if (Matrix.of fun i j : Fin m => A i (Fin.cast h j)).det = 0 then
          some .singular
        else none
      else some .shape

/-- The method `PCG.solve` of `src/solver/classic/pcg.py` on a square system
(`A?`/`b?` are the instance fields, `none` when unset; for the squareness
check on general shapes see `solveChecks`): run the precondition checks,
default `maxiter` to `10 * n` and `M` to the identity, then run the CG loop.
Validation failures happen before `self.x` or `self.iters` is assigned. -/
def PCG_solve {n : ℕ} (A? : Option (Matrix (Fin n) (Fin n) ℚ))
    (b? : Option (Fin n → ℚ)) (M? : Option (Matrix (Fin n) (Fin n) ℚ))
    (maxiter? : Option ℕ) (tol : ℚ) (fuel : ℕ) : Option (SolveResult n) :=
  match A? with
  | none => some ⟨some .missingOperand, none, none⟩
  | some A =>
    match b? with
    | none => some ⟨some .missingOperand, none, none⟩
    | some b =>
      if A.det = 0 then some ⟨some .singular, none, none⟩
      else
        let maxiter := maxiter?.getD (10 * n)
        let M := M?.getD 1
        solveLoop A M maxiter tol fuel (solveInit A M b)

/-! ## Basic facts about the loop states -/

lemma pcgStep_i {n : ℕ} (A invP : Matrix (Fin n) (Fin n) ℚ) (b : Fin n → ℚ)
    (st : PcgState n) : (pcgStep A invP b st).i = st.i + 1 := rfl

lemma pcgStep_r {n : ℕ} (A invP : Matrix (Fin n) (Fin n) ℚ) (b : Fin n → ℚ)
    (st : PcgState n) : (pcgStep A invP b st).r = b - A.mulVec st.x := rfl

lemma pcgIter_i {n p : ℕ} (A : Matrix (Fin n) (Fin n) ℚ) (b : Fin n → ℚ)
    (P : Matrix (Fin n) (Fin p) ℚ) (k : ℕ) : (pcgIter A b P k).i = k := by
  induction k with
  | zero => rfl
  | succ k ih =>
    rw [pcgIter, Function.iterate_succ_apply', pcgStep_i, ← pcgIter, ih]

lemma solveStep_i {n : ℕ} (A M : Matrix (Fin n) (Fin n) ℚ) (st : CGState n) :
    (solveStep A M st).i = st.i + 1 := rfl

lemma solveIter_i {n : ℕ} (A M : Matrix (Fin n) (Fin n) ℚ) (b : Fin n → ℚ) (k : ℕ) :
    (solveIter A M b k).i = k := by
  induction k with
  | zero => rfl
  | succ k ih =>
    rw [solveIter, Function.iterate_succ_apply', solveStep_i, ← solveIter, ih]

/-! ## Runs of the `pcg` loop -/

/-- If the guard holds at the `fuel` states before the iteration cap is hit,
the loop executes exactly `fuel` bodies and returns the `(x, C)` of the state
at the cap (line 80 of the source, the suppressed-error return path). -/
lemma pcgLoop_cap {n : ℕ} (A invP : Matrix (Fin n) (Fin n) ℚ) (b : Fin n → ℚ)
    (maxiter : ℕ) (rtol atol : ℚ) :
    ∀ (fuel : ℕ) (st : PcgState n), 1 ≤ fuel → st.i + fuel = maxiter →
      (∀ k, k < fuel → pcgGuard rtol atol b ((pcgStep A invP b)^[k] st) = true) →
      pcgLoop A invP b maxiter rtol atol fuel st =
        some (((pcgStep A invP b)^[fuel] st).x, ((pcgStep A invP b)^[fuel] st).C) := by
  intro fuel
  induction fuel with
  | zero => omega
  | succ f ih =>
    intro st _ hcap hg
    have hg0 : pcgGuard rtol atol b st = true := by
      have := hg 0 (Nat.succ_pos f)
      rwa [Function.iterate_zero_apply] at this
    rcases Nat.eq_zero_or_pos f with hf | hf
    · subst hf
      simp only [pcgLoop, hg0, if_true]
      rw [if_pos (by rw [pcgStep_i]; omega)]
      rw [Function.iterate_one]
    · simp only [pcgLoop, hg0, if_true]
      rw [if_neg (by rw [pcgStep_i]; omega)]
      have := ih (pcgStep A invP b st) hf (by rw [pcgStep_i]; omega)
        (fun k hk => by
          rw [← Function.iterate_succ_apply]
          exact hg (k + 1) (by omega))
      rw [this, ← Function.iterate_succ_apply]

/-- With `maxiter ≥ 1` the loop always returns within `maxiter` bodies
(regardless of the guard): fuel `maxiter` suffices. -/
lemma pcgLoop_total {n : ℕ} (A invP : Matrix (Fin n) (Fin n) ℚ) (b : Fin n → ℚ)
    (maxiter : ℕ) (rtol atol : ℚ) :
    ∀ (fuel : ℕ) (st : PcgState n), 1 ≤ fuel → st.i + fuel = maxiter →
      ∃ v, pcgLoop A invP b maxiter rtol atol fuel st = some v := by
  intro fuel
  induction fuel with
  | zero => omega
  | succ f ih =>
    intro st _ hcap
    by_cases hg : pcgGuard rtol atol b st = true
    · rcases Nat.eq_zero_or_pos f with hf | hf
      · subst hf
        refine ⟨((pcgStep A invP b st).x, (pcgStep A invP b st).C), ?_⟩
        simp only [pcgLoop, hg, if_true]
        rw [if_pos (by rw [pcgStep_i]; omega)]
      · obtain ⟨v, hv⟩ := ih (pcgStep A invP b st) hf (by rw [pcgStep_i]; omega)
        refine ⟨v, ?_⟩
        simp only [pcgLoop, hg, if_true]
        rw [if_neg (by rw [pcgStep_i]; omega), hv]
    · exact ⟨(st.x, st.C), by simp only [pcgLoop, Bool.not_eq_true] at hg ⊢; rw [hg]; rfl⟩

/-- If the guard holds for the first `k` states, fails at state `k`, and the
cap is not hit on the way (`st.i + j ≠ maxiter` for the bodies `1 ≤ j ≤ k`),
the loop exits through the tolerance test at state `k` and returns its
`(x, C)` (line 82 of the source). -/
lemma pcgLoop_exit {n : ℕ} (A invP : Matrix (Fin n) (Fin n) ℚ) (b : Fin n → ℚ)
    (maxiter : ℕ) (rtol atol : ℚ) :
    ∀ (k : ℕ) (fuel : ℕ) (st : PcgState n), k < fuel →
      (∀ j, j < k → pcgGuard rtol atol b ((pcgStep A invP b)^[j] st) = true) →
      pcgGuard rtol atol b ((pcgStep A invP b)^[k] st) = false →
      (∀ j, 0 < j → j ≤ k → st.i + j ≠ maxiter) →
      pcgLoop A invP b maxiter rtol atol fuel st =
        some (((pcgStep A invP b)^[k] st).x, ((pcgStep A invP b)^[k] st).C) := by
  intro k
  induction k with
  | zero =>
    intro fuel st hfuel _ hk _
    obtain ⟨f, rfl⟩ := Nat.exists_eq_add_of_lt hfuel
    rw [Function.iterate_zero_apply] at hk
    simp only [Nat.zero_add, pcgLoop, hk]
    rfl
  | succ k ih =>
    intro fuel st hfuel hg hk hcap
    obtain ⟨f, rfl⟩ := Nat.exists_eq_add_of_lt hfuel
    have hg0 : pcgGuard rtol atol b st = true := by
      have := hg 0 (Nat.succ_pos k)
      rwa [Function.iterate_zero_apply] at this
    have hstep : pcgLoop A invP b maxiter rtol atol (k + 1 + f + 1) st =
        pcgLoop A invP b maxiter rtol atol (k + 1 + f) (pcgStep A invP b st) := by
      simp only [pcgLoop, hg0, if_true]
      rw [if_neg (by rw [pcgStep_i]; exact hcap 1 Nat.one_pos (by omega))]
    rw [hstep,
      ih (k + 1 + f) (pcgStep A invP b st) (by omega)
        (fun j hj => by
          rw [← Function.iterate_succ_apply]
          exact hg (j + 1) (by omega))
        (by rw [← Function.iterate_succ_apply]; exact hk)
        (fun j hj hjk => by rw [pcgStep_i]; exact fun h => hcap (j + 1) (by omega) (by omega) (by omega)),
      ← Function.iterate_succ_apply]

/-! ## Symmetry of the inverse estimate `C` -/

lemma vecMulVec_self_isSymm {n : ℕ} (d : Fin n → ℚ) : (Matrix.vecMulVec d d).IsSymm := by
  ext i j
  simp [Matrix.transpose_apply, Matrix.vecMulVec_apply, mul_comm]

/-- One `pcg` body preserves symmetry of `C`: the update adds the symmetric
rank-1 matrix `(1/eta) • (d ⊗ d)`. -/
lemma pcgStep_symm {n : ℕ} (A invP : Matrix (Fin n) (Fin n) ℚ) (b : Fin n → ℚ)
    (st : PcgState n) (h : st.C.IsSymm) : (pcgStep A invP b st).C.IsSymm :=
  h.add ((vecMulVec_self_isSymm _).smul _)

lemma pcgIter_symm {n p : ℕ} (A : Matrix (Fin n) (Fin n) ℚ) (b : Fin n → ℚ)
    (P : Matrix (Fin n) (Fin p) ℚ) (k : ℕ) : (pcgIter A b P k).C.IsSymm := by
  induction k with
  | zero => exact Matrix.isSymm_zero
  | succ k ih =>
    rw [pcgIter, Function.iterate_succ_apply', ← pcgIter]
    exact pcgStep_symm _ _ _ _ ih

/-- Whatever state the `pcg` loop returns from, the returned `C` is symmetric
provided the `C` of the entry state is. -/
lemma pcgLoop_symm {n : ℕ} (A invP : Matrix (Fin n) (Fin n) ℚ) (b : Fin n → ℚ)
    (maxiter : ℕ) (rtol atol : ℚ) :
    ∀ (fuel : ℕ) (st : PcgState n) (x : Fin n → ℚ) (C : Matrix (Fin n) (Fin n) ℚ),
      pcgLoop A invP b maxiter rtol atol fuel st = some (x, C) →
      st.C.IsSymm → C.IsSymm := by
  intro fuel
  induction fuel with
  | zero => intro st x C h; simp [pcgLoop] at h
  | succ f ih =>
    intro st x C h hsym
    by_cases hg : pcgGuard rtol atol b st = true
    · simp only [pcgLoop, hg, if_true] at h
      by_cases hcap : (pcgStep A invP b st).i = maxiter
      · rw [if_pos hcap] at h
        obtain ⟨-, hC⟩ := Prod.mk.injEq .. ▸ Option.some.injEq .. ▸ h
        exact hC ▸ pcgStep_symm A invP b st hsym
      · rw [if_neg hcap] at h
        exact ih _ x C h (pcgStep_symm A invP b st hsym)
    · simp only [pcgLoop, Bool.not_eq_true] at hg
      simp only [pcgLoop, hg, Bool.false_eq_true, if_false, Option.some.injEq,
        Prod.mk.injEq] at h
      exact h.2 ▸ hsym

/-! ## Runs of the `PCG.solve` loop -/

/-- If the guard holds at the `fuel` states before the cap is hit, the
`PCG.solve` loop executes exactly `fuel` bodies, then raises the
non-convergence error with `self.iters = maxiter` and `self.x` the iterate
just computed (lines 52-54 of the source). -/
lemma solveLoop_cap {n : ℕ} (A M : Matrix (Fin n) (Fin n) ℚ) (maxiter : ℕ) (tol : ℚ) :
    ∀ (fuel : ℕ) (st : CGState n), 1 ≤ fuel → st.i + fuel = maxiter →
      (∀ k, k < fuel → sqrtGT ((solveStep A M)^[k] st).delta tol = true) →
      solveLoop A M maxiter tol fuel st =
        some ⟨some .nonConvergence, some ((solveStep A M)^[fuel] st).x, some maxiter⟩ := by
  intro fuel
  induction fuel with
  | zero => omega
  | succ f ih =>
    intro st _ hcap hg
    have hg0 : sqrtGT st.delta tol = true := by
      have := hg 0 (Nat.succ_pos f)
      rwa [Function.iterate_zero_apply] at this
    have hcond : (sqrtGT st.delta tol = true) ∧ st.i < maxiter := ⟨hg0, by omega⟩
    rcases Nat.eq_zero_or_pos f with hf | hf
    · subst hf
      simp only [solveLoop, if_pos hcond]
      rw [if_pos (by rw [solveStep_i]; omega)]
      rw [Function.iterate_one]
    · simp only [solveLoop, if_pos hcond]
      rw [if_neg (by rw [solveStep_i]; omega)]
      have := ih (solveStep A M st) hf (by rw [solveStep_i]; omega)
        (fun k hk => by
          rw [← Function.iterate_succ_apply]
          exact hg (k + 1) (by omega))
      rw [this, ← Function.iterate_succ_apply]

/-- A normal (no-exception) return of the `PCG.solve` loop entered below the
cap comes from a state below the cap at which the tolerance test succeeded
(`√delta ≤ tol`); the returned fields are that state's. -/
lemma solveLoop_some_none {n : ℕ} (A M : Matrix (Fin n) (Fin n) ℚ) (maxiter : ℕ) (tol : ℚ) :
    ∀ (fuel : ℕ) (st : CGState n) (res : SolveResult n),
      solveLoop A M maxiter tol fuel st = some res → res.err = none →
      st.i < maxiter →
      ∃ k, sqrtGT ((solveStep A M)^[k] st).delta tol = false ∧
        ((solveStep A M)^[k] st).i < maxiter ∧
        res.x = some ((solveStep A M)^[k] st).x ∧
        res.iters = some ((solveStep A M)^[k] st).i := by
  intro fuel
  induction fuel with
  | zero => intro st res h; simp [solveLoop] at h
  | succ f ih =>
    intro st res h herr hlt
    by_cases hg : sqrtGT st.delta tol = true
    · have hcond : (sqrtGT st.delta tol = true) ∧ st.i < maxiter := ⟨hg, hlt⟩
      simp only [solveLoop, if_pos hcond] at h
      by_cases hcap : (solveStep A M st).i = maxiter
      · rw [if_pos hcap] at h
        obtain rfl := (Option.some.injEq .. ▸ h).symm
        simp at herr
      · rw [if_neg hcap] at h
        obtain ⟨k, hk⟩ := ih (solveStep A M st) res h herr
          (by rw [solveStep_i] at hcap ⊢; omega)
        exact ⟨k + 1, by
          rw [Function.iterate_succ_apply]
          exact hk⟩
    · have hcond : ¬ ((sqrtGT st.delta tol = true) ∧ st.i < maxiter) := fun hc => hg hc.1
      simp only [solveLoop, if_neg hcond] at h
      obtain rfl := (Option.some.injEq .. ▸ h).symm
      refine ⟨0, ?_⟩
      rw [Function.iterate_zero_apply]
      exact ⟨Bool.not_eq_true _ ▸ hg, hlt, rfl, rfl⟩

/-- Complete characterization of the raise: entered with budget
`st.i + fuel = maxiter + 1` and `st.i ≤ maxiter`, the loop returns, and it
returns the non-convergence error exactly when it is entered below the cap
and the tolerance test fails at every state strictly below the cap. -/
lemma solveLoop_err_iff {n : ℕ} (A M : Matrix (Fin n) (Fin n) ℚ) (maxiter : ℕ) (tol : ℚ) :
    ∀ (fuel : ℕ) (st : CGState n), st.i ≤ maxiter → st.i + fuel = maxiter + 1 →
      ∃ res, solveLoop A M maxiter tol fuel st = some res ∧
        (res.err = some .nonConvergence ↔
          (st.i < maxiter ∧ ∀ k, st.i + k < maxiter →
            sqrtGT ((solveStep A M)^[k] st).delta tol = true)) := by
  intro fuel
  induction fuel with
  | zero => omega
  | succ f ih =>
    intro st hle hbudget
    by_cases hcond : (sqrtGT st.delta tol = true) ∧ st.i < maxiter
    · by_cases hcap : (solveStep A M st).i = maxiter
      · refine ⟨⟨some .nonConvergence, some ((solveStep A M) st).x, some maxiter⟩, ?_, ?_⟩
        · simp only [solveLoop, if_pos hcond, if_pos hcap]
        · simp only [true_iff]
          refine ⟨hcond.2, fun k hk => ?_⟩
          have hk0 : k = 0 := by rw [solveStep_i] at hcap; omega
          subst hk0
          rw [Function.iterate_zero_apply]
          exact hcond.1
      · have hi' : (solveStep A M st).i ≤ maxiter := by
          rw [solveStep_i] at hcap ⊢; omega
        obtain ⟨res, hres, hiff⟩ := ih (solveStep A M st) hi'
          (by rw [solveStep_i]; omega)
        refine ⟨res, ?_, ?_⟩
        · simp only [solveLoop, if_pos hcond, if_neg hcap]
          exact hres
        · rw [hiff]
          constructor
          · rintro ⟨h1, h2⟩
            refine ⟨hcond.2, fun k hk => ?_⟩
            rcases Nat.eq_zero_or_pos k with rfl | hkpos
            · rw [Function.iterate_zero_apply]; exact hcond.1
            · obtain ⟨k', rfl⟩ := Nat.exists_eq_add_of_lt hkpos
              rw [Nat.zero_add, Function.iterate_succ_apply]
              refine h2 k' ?_
              have hsi : (solveStep A M st).i = st.i + 1 := solveStep_i A M st
              omega
          · rintro ⟨h1, h2⟩
            have hsi : (solveStep A M st).i = st.i + 1 := solveStep_i A M st
            refine ⟨by omega, fun k hk => ?_⟩
            rw [← Function.iterate_succ_apply]
            exact h2 (k + 1) (by omega)
    · refine ⟨⟨none, some st.x, some st.i⟩, ?_, ?_⟩
      · simp only [solveLoop, if_neg hcond]
      · constructor
        · intro h
          exact Option.noConfusion h
        · rintro ⟨h1, h2⟩
          have := h2 0 (by omega)
          rw [Function.iterate_zero_apply] at this
          exact absurd ⟨this, h1⟩ hcond

/-- With nonempty operands and invertible `A`, `PCG_solve` is its CG loop. -/
lemma PCG_solve_eq_loop {n : ℕ} (A : Matrix (Fin n) (Fin n) ℚ) (b : Fin n → ℚ)
    (M? : Option (Matrix (Fin n) (Fin n) ℚ)) (maxiter? : Option ℕ) (tol : ℚ)
    (fuel : ℕ) (hdet : A.det ≠ 0) :
    PCG_solve (some A) (some b) M? maxiter? tol fuel =
      solveLoop A (M?.getD 1) (maxiter?.getD (10 * n)) tol fuel
        (solveInit A (M?.getD 1) b) := by
  simp only [PCG_solve, if_neg hdet]

/-! ## Adequacy of the rational norm-comparison encodings -/

/-- For a nonnegative radicand, `sqrtGT` is exactly the real comparison
`√delta > tol`. -/
lemma sqrtGT_iff_real (delta tol : ℚ) (hd : 0 ≤ delta) :
    sqrtGT delta tol = true ↔ (tol : ℝ) < Real.sqrt (delta : ℚ) := by
  rw [sqrtGT, if_neg (by exact not_lt.mpr hd)]
  by_cases ht : tol < 0
  · rw [if_pos ht]
    simp only [true_iff]
    calc (tol : ℝ) < 0 := by exact_mod_cast ht
      _ ≤ Real.sqrt delta := Real.sqrt_nonneg _
  · rw [if_neg ht, decide_eq_true_iff]
    push_neg at ht
    rw [Real.lt_sqrt (by exact_mod_cast ht)]
    constructor
    · intro h
      exact_mod_cast h
    · intro h
      exact_mod_cast h

/-- For nonnegative squared norms, `normGT` is exactly the real comparison
`‖r‖ > max (rtol * ‖b‖) atol` with `‖r‖ = √rsq`, `‖b‖ = √bsq`. -/
lemma normGT_iff_real (rsq rtol atol bsq : ℚ) (hb : 0 ≤ bsq) :
    normGT rsq rtol atol bsq = true ↔
      max ((rtol : ℝ) * Real.sqrt (bsq : ℚ)) (atol : ℝ) < Real.sqrt (rsq : ℚ) := by
  rw [normGT, Bool.and_eq_true, max_lt_iff]
  have harm2 : ((if atol < 0 then true else decide (atol ^ 2 < rsq)) = true) ↔
      (atol : ℝ) < Real.sqrt (rsq : ℚ) := by
    by_cases ht : atol < 0
    · rw [if_pos ht]
      simp only [true_iff]
      calc (atol : ℝ) < 0 := by exact_mod_cast ht
        _ ≤ Real.sqrt rsq := Real.sqrt_nonneg _
    · rw [if_neg ht, decide_eq_true_iff]
      push_neg at ht
      rw [Real.lt_sqrt (by exact_mod_cast ht)]
      constructor
      · intro h; exact_mod_cast h
      · intro h; exact_mod_cast h
  have harm1 : ((if bsq = 0 ∨ rtol = 0 then decide (0 < rsq)
      else if rtol < 0 then true
      else decide (rtol ^ 2 * bsq < rsq)) = true) ↔
      (rtol : ℝ) * Real.sqrt (bsq : ℚ) < Real.sqrt (rsq : ℚ) := by
    by_cases h0 : bsq = 0 ∨ rtol = 0
    · rw [if_pos h0, decide_eq_true_iff]
      have hzero : (rtol : ℝ) * Real.sqrt (bsq : ℚ) = 0 := by
        rcases h0 with h | h
        · rw [h]
          push_cast
          rw [Real.sqrt_zero, mul_zero]
        · rw [h]
          push_cast
          rw [zero_mul]
      rw [hzero, Real.sqrt_pos]
      constructor
      · intro h; exact_mod_cast h
      · intro h; exact_mod_cast h
    · push_neg at h0
      have hbpos : 0 < bsq := lt_of_le_of_ne hb (Ne.symm h0.1)
      have hsq : (0 : ℝ) < Real.sqrt (bsq : ℚ) := Real.sqrt_pos.mpr (by exact_mod_cast hbpos)
      rw [if_neg (by push_neg; exact ⟨h0.1, h0.2⟩)]
      by_cases ht : rtol < 0
      · rw [if_pos ht]
        simp only [true_iff]
        calc (rtol : ℝ) * Real.sqrt (bsq : ℚ) < 0 :=
              mul_neg_of_neg_of_pos (by exact_mod_cast ht) hsq
          _ ≤ Real.sqrt rsq := Real.sqrt_nonneg _
      · rw [if_neg ht, decide_eq_true_iff]
        push_neg at ht
        have htt : (0 : ℝ) ≤ rtol := by exact_mod_cast ht
        rw [Real.lt_sqrt (mul_nonneg htt (Real.sqrt_nonneg _)), mul_pow,
          Real.sq_sqrt (by exact_mod_cast hb)]
        constructor
        · intro h
          exact_mod_cast h
        · intro h
          exact_mod_cast h
  rw [harm1, harm2]

/-! ## The Woodbury form of `mat_inv_lemma` and scalar instances -/

/-- `mat_inv_lemma` written with Mathlib's matrix inverse. -/
lemma mat_inv_lemma_eq {n k : ℕ} (A : Matrix (Fin n) (Fin n) ℚ)
    (U : Matrix (Fin n) (Fin k) ℚ) (C : Matrix (Fin k) (Fin k) ℚ)
    (V : Matrix (Fin n) (Fin k) ℚ) :
    mat_inv_lemma A U C V =
      A⁻¹ - A⁻¹ * U * (C⁻¹ + V.transpose * A⁻¹ * U)⁻¹ * V.transpose * A⁻¹ := by
  simp only [mat_inv_lemma, matInv_eq_inv, Matrix.mul_assoc]

lemma matInv_smul_one {n : ℕ} (c : ℚ) (hc : c ≠ 0) :
    matInv (c • (1 : Matrix (Fin n) (Fin n) ℚ)) = c⁻¹ • 1 := by
  rw [matInv_eq_inv]
  refine Matrix.inv_eq_right_inv ?_
  rw [Matrix.smul_mul, Matrix.mul_smul, Matrix.one_mul, smul_smul, mul_inv_cancel₀ hc,
    one_smul]

/-- Evaluation of `mat_inv_lemma` on the scalar family used for the default
preconditioner of `pcg`: ridge weight `c` on the identity, `U = C = V = 1`. -/
lemma mat_inv_lemma_smul_one {n : ℕ} (c : ℚ) (hc : c ≠ 0) (hc1 : c + 1 ≠ 0) :
    mat_inv_lemma (c • (1 : Matrix (Fin n) (Fin n) ℚ))
      (1 : Matrix (Fin n) (Fin n) ℚ) 1 1 = (c + 1)⁻¹ • 1 := by
  have hinv : (1 : ℚ) + c⁻¹ ≠ 0 := by
    have h : (1 : ℚ) + c⁻¹ = (c + 1)/c := by
      field_simp
    rw [h]
    exact div_ne_zero hc1 hc
  simp only [mat_inv_lemma, matInv_smul_one c hc, matInv_one, Matrix.transpose_one,
    Matrix.mul_one, Matrix.one_mul]
  have hsum : (1 : Matrix (Fin n) (Fin n) ℚ) + c⁻¹ • 1 = ((1 + c⁻¹) : ℚ) • 1 := by
    rw [add_smul, one_smul]
  rw [hsum, matInv_smul_one _ hinv]
  rw [Matrix.smul_mul, Matrix.mul_smul, Matrix.smul_mul, Matrix.one_mul, smul_smul,
    smul_smul, Matrix.one_mul, ← sub_smul]
  congr 1
  field_simp

/-- The default initial preconditioner inverse of `pcg` (with `P = I`):
the exact inverse of `(0.01 + 1) • I`, namely `(100/101) • I`. -/
lemma pcg_invP_one {n : ℕ} :
    pcg_invP (1 : Matrix (Fin n) (Fin n) ℚ) = ((100 : ℚ)/101) • 1 := by
  rw [pcg_invP]
  have h1 : ((1 : ℚ)/10) ^ 2 = 1/100 := by norm_num
  rw [h1, mat_inv_lemma_smul_one (1/100) (by norm_num) (by norm_num)]
  norm_num

/-! ## Projection lemmas for the loop bodies (definitional) -/

lemma solveInit_x {n : ℕ} (A M : Matrix (Fin n) (Fin n) ℚ) (b : Fin n → ℚ) :
    (solveInit A M b).x = 0 := rfl

lemma solveInit_r {n : ℕ} (A M : Matrix (Fin n) (Fin n) ℚ) (b : Fin n → ℚ) :
    (solveInit A M b).r = b - A.mulVec 0 := rfl

lemma solveInit_z {n : ℕ} (A M : Matrix (Fin n) (Fin n) ℚ) (b : Fin n → ℚ) :
    (solveInit A M b).z = npSolve M (b - A.mulVec 0) := rfl

lemma solveInit_d {n : ℕ} (A M : Matrix (Fin n) (Fin n) ℚ) (b : Fin n → ℚ) :
    (solveInit A M b).d = (solveInit A M b).z := rfl

lemma solveInit_delta {n : ℕ} (A M : Matrix (Fin n) (Fin n) ℚ) (b : Fin n → ℚ) :
    (solveInit A M b).delta =
      Matrix.dotProduct ((solveInit A M b).r) ((solveInit A M b).z) := rfl

lemma solveStep_x {n : ℕ} (A M : Matrix (Fin n) (Fin n) ℚ) (st : CGState n) :
    (solveStep A M st).x =
      st.x + (st.delta / Matrix.dotProduct st.d (A.mulVec st.d)) • st.d := rfl

lemma solveStep_r {n : ℕ} (A M : Matrix (Fin n) (Fin n) ℚ) (st : CGState n) :
    (solveStep A M st).r =
      st.r - (st.delta / Matrix.dotProduct st.d (A.mulVec st.d)) • (A.mulVec st.d) := rfl

lemma solveStep_z {n : ℕ} (A M : Matrix (Fin n) (Fin n) ℚ) (st : CGState n) :
    (solveStep A M st).z = npSolve M ((solveStep A M st).r) := rfl

lemma solveStep_delta {n : ℕ} (A M : Matrix (Fin n) (Fin n) ℚ) (st : CGState n) :
    (solveStep A M st).delta =
      Matrix.dotProduct ((solveStep A M st).r) ((solveStep A M st).z) := rfl

lemma solveStep_d {n : ℕ} (A M : Matrix (Fin n) (Fin n) ℚ) (st : CGState n) :
    (solveStep A M st).d =
      (solveStep A M st).z + ((solveStep A M st).delta / st.delta) • st.d := rfl

lemma pcgInit_x {n : ℕ} (A : Matrix (Fin n) (Fin n) ℚ) (b : Fin n → ℚ) :
    (pcgInit A b).x = 0 := rfl

lemma pcgInit_C {n : ℕ} (A : Matrix (Fin n) (Fin n) ℚ) (b : Fin n → ℚ) :
    (pcgInit A b).C = 0 := rfl

lemma pcgInit_r {n : ℕ} (A : Matrix (Fin n) (Fin n) ℚ) (b : Fin n → ℚ) :
    (pcgInit A b).r = b - A.mulVec 0 := rfl

lemma pcgStep_x {n : ℕ} (A invP : Matrix (Fin n) (Fin n) ℚ) (b : Fin n → ℚ)
    (st : PcgState n) :
    (pcgStep A invP b st).x =
      st.x +
        (Matrix.dotProduct (invP.mulVec (b - A.mulVec st.x)) (b - A.mulVec st.x) /
            Matrix.dotProduct (invP.mulVec (b - A.mulVec st.x))
              (A.mulVec (((1 : Matrix (Fin n) (Fin n) ℚ) - st.C * A).mulVec
                (invP.mulVec (b - A.mulVec st.x))))) •
          ((1 : Matrix (Fin n) (Fin n) ℚ) - st.C * A).mulVec
            (invP.mulVec (b - A.mulVec st.x)) := rfl

lemma pcgStep_C {n : ℕ} (A invP : Matrix (Fin n) (Fin n) ℚ) (b : Fin n → ℚ)
    (st : PcgState n) :
    (pcgStep A invP b st).C =
      st.C +
        (1 /
            Matrix.dotProduct (invP.mulVec (b - A.mulVec st.x))
              (A.mulVec (((1 : Matrix (Fin n) (Fin n) ℚ) - st.C * A).mulVec
                (invP.mulVec (b - A.mulVec st.x))))) •
          Matrix.vecMulVec
            (((1 : Matrix (Fin n) (Fin n) ℚ) - st.C * A).mulVec
              (invP.mulVec (b - A.mulVec st.x)))
            (((1 : Matrix (Fin n) (Fin n) ℚ) - st.C * A).mulVec
              (invP.mulVec (b - A.mulVec st.x))) := rfl

/-! ## Residual invariants of the `PCG.solve` loop with `M = 1` -/

/-- With the identity preconditioner, along the whole trajectory of
`PCG.solve`, the stored `r` is the exact residual `b - A x` of the stored
iterate, `z = r`, and `delta = ‖r‖²`. -/
lemma solveIter_id_inv {n : ℕ} (A : Matrix (Fin n) (Fin n) ℚ) (b : Fin n → ℚ) (k : ℕ) :
    (solveIter A 1 b k).r = b - A.mulVec ((solveIter A 1 b k).x) ∧
    (solveIter A 1 b k).z = (solveIter A 1 b k).r ∧
    (solveIter A 1 b k).delta = normSq ((solveIter A 1 b k).r) := by
  have hnp : ∀ v : Fin n → ℚ, npSolve 1 v = v := fun v => by
    rw [npSolve, matInv_one, Matrix.one_mulVec]
  induction k with
  | zero =>
    refine ⟨?_, ?_, ?_⟩
    · rw [solveIter, Function.iterate_zero_apply, solveInit_r, solveInit_x]
    · rw [solveIter, Function.iterate_zero_apply, solveInit_z, solveInit_r, hnp]
    · rw [solveIter, Function.iterate_zero_apply, solveInit_delta, solveInit_z, solveInit_r,
        hnp, normSq]
  | succ k ih =>
    obtain ⟨ihr, ihz, ihd⟩ := ih
    have hiter : solveIter A 1 b (k + 1) = solveStep A 1 (solveIter A 1 b k) := by
      rw [solveIter, Function.iterate_succ_apply', ← solveIter]
    set st := solveIter A 1 b k with hst
    refine ⟨?_, ?_, ?_⟩
    · rw [hiter, solveStep_r, solveStep_x, Matrix.mulVec_add, Matrix.mulVec_smul, ihr]
      abel
    · rw [hiter, solveStep_z, hnp]
    · rw [hiter, solveStep_delta, solveStep_z, hnp, normSq]

/-! ## Concrete evaluations: the 1-dimensional system `A = [[1]]`, `b = [1]` -/

lemma pcg1_init :
    pcgInit !![(1:ℚ)] ![1] = ⟨![0], !![0], ![1], 0⟩ := by
  ext i j
  · rw [pcgInit_x]
    fin_cases i
    simp
  · rw [pcgInit_C]
    fin_cases i <;> fin_cases j <;> simp
  · rw [pcgInit_r]
    fin_cases i
    simp [Matrix.mulVec]
  · rfl

lemma pcg1_iter1 :
    pcgIter !![(1:ℚ)] ![1] (1 : Matrix (Fin 1) (Fin 1) ℚ) 1 = ⟨![1], !![1], ![1], 1⟩ := by
  rw [pcgIter, Function.iterate_one, pcg_invP_one]
  have hx0 : (pcgInit !![(1:ℚ)] ![1]).x = ![0] := by rw [pcg1_init]
  have hC0 : (pcgInit !![(1:ℚ)] ![1]).C = !![0] := by rw [pcg1_init]
  have hr : ![(1:ℚ)] - (!![(1:ℚ)]).mulVec ![0] = ![1] := by
    funext i
    fin_cases i
    simp [Matrix.mulVec, Matrix.dotProduct]
  have hs : (((100:ℚ)/101) • (1 : Matrix (Fin 1) (Fin 1) ℚ)).mulVec ![1] = ![100/101] := by
    rw [Matrix.smul_mulVec_assoc, Matrix.one_mulVec]
    funext i
    fin_cases i
    simp
  have hd : ((1 : Matrix (Fin 1) (Fin 1) ℚ) - !![0] * !![(1:ℚ)]).mulVec ![100/101] =
      ![100/101] := by
    funext i
    fin_cases i
    simp [Matrix.mulVec, Matrix.dotProduct, Matrix.one_apply, Matrix.mul_apply,
      Matrix.sub_apply]
  have hAd : (!![(1:ℚ)]).mulVec ![100/101] = ![100/101] := by
    funext i
    fin_cases i
    simp [Matrix.mulVec, Matrix.dotProduct]
  have halpha : Matrix.dotProduct ![(100:ℚ)/101] ![1] = 100/101 := by
    simp [Matrix.dotProduct]
  have heta : Matrix.dotProduct ![(100:ℚ)/101] ![100/101] = (100/101) * (100/101) := by
    simp [Matrix.dotProduct]
  ext i j
  · rw [pcgStep_x, hx0, hC0, hr, hs, hd, hAd, halpha, heta]
    fin_cases i
    norm_num
  · rw [pcgStep_C, hx0, hC0, hr, hs, hd, hAd, heta]
    fin_cases i <;> fin_cases j <;>
      simp [Matrix.vecMulVec_apply] <;> norm_num
  · rw [pcgStep_r, hx0, hr]
  · rfl

lemma pcg1_iter2 :
    pcgIter !![(1:ℚ)] ![1] (1 : Matrix (Fin 1) (Fin 1) ℚ) 2 = ⟨![1], !![1], ![0], 2⟩ := by
  have h2 : (2 : ℕ) = 1 + 1 := rfl
  rw [pcgIter, h2, Function.iterate_succ_apply', ← pcgIter, pcg1_iter1, pcg_invP_one]
  have hr : ![(1:ℚ)] - (!![(1:ℚ)]).mulVec ![1] = ![0] := by
    funext i
    fin_cases i
    simp [Matrix.mulVec, Matrix.dotProduct]
  have hs : (((100:ℚ)/101) • (1 : Matrix (Fin 1) (Fin 1) ℚ)).mulVec ![0] = ![0] := by
    rw [Matrix.smul_mulVec_assoc, Matrix.one_mulVec]
    funext i
    fin_cases i
    simp
  have hd : ((1 : Matrix (Fin 1) (Fin 1) ℚ) - !![1] * !![(1:ℚ)]).mulVec ![0] = ![0] := by
    funext i
    fin_cases i
    simp [Matrix.mulVec, Matrix.dotProduct]
  have hAd : (!![(1:ℚ)]).mulVec ![0] = ![0] := by
    funext i
    fin_cases i
    simp [Matrix.mulVec, Matrix.dotProduct]
  have halpha : Matrix.dotProduct ![(0:ℚ)] ![0] = 0 := by
    simp [Matrix.dotProduct]
  ext i j
  · rw [pcgStep_x]
    show (![(1:ℚ)] + _) i = _
    rw [hr, hs, hd, hAd, halpha]
    fin_cases i
    norm_num
  · rw [pcgStep_C]
    show (!![(1:ℚ)] + _) i j = _
    rw [hr, hs, hd, hAd, halpha]
    fin_cases i <;> fin_cases j <;>
      simp [Matrix.vecMulVec_apply]
  · rw [pcgStep_r]
    show (![(1:ℚ)] - (!![(1:ℚ)]).mulVec ![1]) i = _
    rw [hr]
  · rfl

lemma normSq_single (a : ℚ) : normSq ![a] = a * a := by
  simp [normSq, Matrix.dotProduct]

lemma pcg1_guard0 :
    pcgGuard (1/1000000) (1/1000000) ![(1:ℚ)] (pcgInit !![(1:ℚ)] ![1]) = true := by
  rw [pcg1_init]
  show normGT (normSq ![(1:ℚ)]) _ _ (normSq ![(1:ℚ)]) = true
  rw [normSq_single]
  norm_num [normGT]

lemma pcg1_guard1 :
    pcgGuard (1/1000000) (1/1000000) ![(1:ℚ)]
      (pcgIter !![(1:ℚ)] ![1] (1 : Matrix (Fin 1) (Fin 1) ℚ) 1) = true := by
  rw [pcg1_iter1]
  show normGT (normSq ![(1:ℚ)]) _ _ (normSq ![(1:ℚ)]) = true
  rw [normSq_single]
  norm_num [normGT]

lemma pcg1_guard2 :
    pcgGuard (1/1000000) (1/1000000) ![(1:ℚ)]
      (pcgIter !![(1:ℚ)] ![1] (1 : Matrix (Fin 1) (Fin 1) ℚ) 2) = false := by
  rw [pcg1_iter2]
  show normGT (normSq ![(0:ℚ)]) _ _ (normSq ![(1:ℚ)]) = false
  rw [normSq_single, normSq_single]
  norm_num [normGT]

lemma matInv_fin_one (a : ℚ) : matInv !![a] = !![a⁻¹] := by
  rw [matInv, Matrix.det_fin_one, Matrix.adjugate_fin_one]
  ext i j
  fin_cases i
  fin_cases j
  simp

lemma solve1_init :
    solveInit !![(1:ℚ)] 1 ![1] = ⟨![0], ![1], ![1], ![1], 1, 0⟩ := by
  have hnp : ∀ v : Fin 1 → ℚ, npSolve 1 v = v := fun v => by
    rw [npSolve, matInv_one, Matrix.one_mulVec]
  have hr : ![(1:ℚ)] - (!![(1:ℚ)]).mulVec 0 = ![1] := by
    funext i
    fin_cases i
    simp [Matrix.mulVec, Matrix.dotProduct]
  ext i
  · rw [solveInit_x]
    fin_cases i
    simp
  · rw [solveInit_r, hr]
  · rw [solveInit_z, hr, hnp]
  · rw [solveInit_d, solveInit_z, hr, hnp]
  · rw [solveInit_delta, solveInit_z, solveInit_r, hr, hnp]
    simp [Matrix.dotProduct]
  · rfl

lemma solve1_iter1 :
    solveIter !![(1:ℚ)] 1 ![1] 1 = ⟨![1], ![0], ![0], ![0], 0, 1⟩ := by
  rw [solveIter, Function.iterate_one, solve1_init]
  have hnp : ∀ v : Fin 1 → ℚ, npSolve 1 v = v := fun v => by
    rw [npSolve, matInv_one, Matrix.one_mulVec]
  have hq : (!![(1:ℚ)]).mulVec ![1] = ![1] := by
    funext i
    fin_cases i
    simp [Matrix.mulVec, Matrix.dotProduct]
  have hdq : Matrix.dotProduct ![(1:ℚ)] ![1] = 1 := by
    simp [Matrix.dotProduct]
  have hx : (solveStep !![(1:ℚ)] 1 ⟨![0], ![1], ![1], ![1], 1, 0⟩).x = ![1] := by
    rw [solveStep_x]
    show ![(0:ℚ)] + ((1:ℚ) / Matrix.dotProduct ![(1:ℚ)] ((!![(1:ℚ)]).mulVec ![1])) • ![(1:ℚ)]
        = ![1]
    rw [hq, hdq]
    funext i
    fin_cases i
    norm_num
  have hrn : (solveStep !![(1:ℚ)] 1 ⟨![0], ![1], ![1], ![1], 1, 0⟩).r = ![0] := by
    rw [solveStep_r]
    show ![(1:ℚ)] - ((1:ℚ) / Matrix.dotProduct ![(1:ℚ)] ((!![(1:ℚ)]).mulVec ![1])) •
        ((!![(1:ℚ)]).mulVec ![1]) = ![0]
    rw [hq, hdq]
    funext i
    fin_cases i
    norm_num
  have hz : (solveStep !![(1:ℚ)] 1 ⟨![0], ![1], ![1], ![1], 1, 0⟩).z = ![0] := by
    rw [solveStep_z, hrn, hnp]
  have hdel : (solveStep !![(1:ℚ)] 1 ⟨![0], ![1], ![1], ![1], 1, 0⟩).delta = 0 := by
    rw [solveStep_delta, hrn, hz]
    simp [Matrix.dotProduct]
  have hd2 : (solveStep !![(1:ℚ)] 1 ⟨![0], ![1], ![1], ![1], 1, 0⟩).d = ![0] := by
    rw [solveStep_d, hz, hdel]
    show ![(0:ℚ)] + ((0:ℚ) / 1) • ![(1:ℚ)] = ![0]
    funext i
    fin_cases i
    norm_num
  ext i
  · rw [hx]
  · rw [hrn]
  · rw [hz]
  · rw [hd2]
  · rw [hdel]
  · rfl

lemma normSq_pair (a b : ℚ) : normSq ![a, b] = a * a + b * b := by
  simp [normSq, Matrix.dotProduct, Fin.sum_univ_two]

/-! ## Concrete evaluations: the 2-dimensional system `A = [[4,1],[1,3]]`, `b = [1,2]` -/

lemma solve2_init :
    solveInit !![(4:ℚ),1;1,3] 1 ![1,2] = ⟨![0,0], ![1,2], ![1,2], ![1,2], 5, 0⟩ := by
  have hnp : ∀ v : Fin 2 → ℚ, npSolve 1 v = v := fun v => by
    rw [npSolve, matInv_one, Matrix.one_mulVec]
  have hr : ![(1:ℚ),2] - (!![(4:ℚ),1;1,3]).mulVec 0 = ![1,2] := by
    rw [Matrix.mulVec_zero, sub_zero]
  have hdot : Matrix.dotProduct ![(1:ℚ),2] ![1,2] = 5 := by
    simp [Matrix.dotProduct, Fin.sum_univ_two]
    norm_num
  ext i
  · rw [solveInit_x]
    fin_cases i <;> simp
  · rw [solveInit_r, hr]
  · rw [solveInit_z, hr, hnp]
  · rw [solveInit_d, solveInit_z, hr, hnp]
  · rw [solveInit_delta, solveInit_z, solveInit_r, hr, hnp, hdot]
  · rfl

lemma solve2_iter1 :
    solveIter !![(4:ℚ),1;1,3] 1 ![1,2] 1 =
      ⟨![1/4, 1/2], ![-1/2, 1/4], ![-1/2, 1/4], ![-7/16, 3/8], 5/16, 1⟩ := by
  rw [solveIter, Function.iterate_one, solve2_init]
  have hnp : ∀ v : Fin 2 → ℚ, npSolve 1 v = v := fun v => by
    rw [npSolve, matInv_one, Matrix.one_mulVec]
  have hq : (!![(4:ℚ),1;1,3]).mulVec ![1,2] = ![6,7] := by
    funext i
    fin_cases i <;>
      (simp [Matrix.mulVec, Matrix.dotProduct, Fin.sum_univ_two]; norm_num)
  have hdq : Matrix.dotProduct ![(1:ℚ),2] ![6,7] = 20 := by
    simp [Matrix.dotProduct, Fin.sum_univ_two]
    norm_num
  have hx : (solveStep !![(4:ℚ),1;1,3] 1 ⟨![0,0], ![1,2], ![1,2], ![1,2], 5, 0⟩).x =
      ![1/4, 1/2] := by
    rw [solveStep_x]
    show ![(0:ℚ),0] + ((5:ℚ) / Matrix.dotProduct ![(1:ℚ),2] ((!![(4:ℚ),1;1,3]).mulVec ![1,2])) •
        ![(1:ℚ),2] = ![1/4, 1/2]
    rw [hq, hdq]
    funext i
    fin_cases i <;> norm_num
  have hrn : (solveStep !![(4:ℚ),1;1,3] 1 ⟨![0,0], ![1,2], ![1,2], ![1,2], 5, 0⟩).r =
      ![-1/2, 1/4] := by
    rw [solveStep_r]
    show ![(1:ℚ),2] - ((5:ℚ) / Matrix.dotProduct ![(1:ℚ),2] ((!![(4:ℚ),1;1,3]).mulVec ![1,2])) •
        ((!![(4:ℚ),1;1,3]).mulVec ![1,2]) = ![-1/2, 1/4]
    rw [hq, hdq]
    funext i
    fin_cases i <;> norm_num
  have hz : (solveStep !![(4:ℚ),1;1,3] 1 ⟨![0,0], ![1,2], ![1,2], ![1,2], 5, 0⟩).z =
      ![-1/2, 1/4] := by
    rw [solveStep_z, hrn, hnp]
  have hdel : (solveStep !![(4:ℚ),1;1,3] 1 ⟨![0,0], ![1,2], ![1,2], ![1,2], 5, 0⟩).delta =
      5/16 := by
    rw [solveStep_delta, hrn, hz]
    simp [Matrix.dotProduct, Fin.sum_univ_two]
    norm_num
  have hd2 : (solveStep !![(4:ℚ),1;1,3] 1 ⟨![0,0], ![1,2], ![1,2], ![1,2], 5, 0⟩).d =
      ![-7/16, 3/8] := by
    rw [solveStep_d, hz, hdel]
    show ![(-1/2 : ℚ), 1/4] + ((5/16 : ℚ) / 5) • ![(1:ℚ),2] = ![-7/16, 3/8]
    funext i
    fin_cases i <;> norm_num
  ext i
  · rw [hx]
  · rw [hrn]
  · rw [hz]
  · rw [hd2]
  · rw [hdel]
  · rfl

lemma pcg2_init_r : (pcgInit !![(4:ℚ),1;1,3] ![1,2]).r = ![1,2] := by
  rw [pcgInit_r, Matrix.mulVec_zero, sub_zero]

lemma pcg2_iter1_r :
    (pcgIter !![(4:ℚ),1;1,3] ![1,2] (1 : Matrix (Fin 2) (Fin 2) ℚ) 1).r = ![1,2] := by
  rw [pcgIter, Function.iterate_one, pcgStep_r, pcgInit_x, Matrix.mulVec_zero, sub_zero]

lemma pcg2_guard0 :
    pcgGuard (1/1000000) (1/1000000) ![(1:ℚ),2]
      (pcgIter !![(4:ℚ),1;1,3] ![1,2] (1 : Matrix (Fin 2) (Fin 2) ℚ) 0) = true := by
  simp only [pcgGuard, pcgIter, Function.iterate_zero_apply, pcg2_init_r, normSq_pair]
  norm_num [normGT]

lemma pcg2_guard1 :
    pcgGuard (1/1000000) (1/1000000) ![(1:ℚ),2]
      (pcgIter !![(4:ℚ),1;1,3] ![1,2] (1 : Matrix (Fin 2) (Fin 2) ℚ) 1) = true := by
  simp only [pcgGuard, pcg2_iter1_r, normSq_pair]
  norm_num [normGT]

lemma solve2_guard0 : sqrtGT (5 : ℚ) (1/100000000) = true := by
  norm_num [sqrtGT]

lemma solve2_guard1 : sqrtGT ((5:ℚ)/16) (1/100000000) = true := by
  norm_num [sqrtGT]

/-- Evaluation scheme for one `pcg` body from precomputed intermediates. -/
lemma pcgStep_eval {n : ℕ} (A invP : Matrix (Fin n) (Fin n) ℚ) (b : Fin n → ℚ)
    (st : PcgState n) (r s d Ad : Fin n → ℚ) (alpha eta : ℚ)
    (hr : b - A.mulVec st.x = r)
    (hs : invP.mulVec r = s)
    (halpha : Matrix.dotProduct s r = alpha)
    (hd : ((1 : Matrix (Fin n) (Fin n) ℚ) - st.C * A).mulVec s = d)
    (hAd : A.mulVec d = Ad)
    (heta : Matrix.dotProduct s Ad = eta) :
    pcgStep A invP b st =
      ⟨st.x + (alpha / eta) • d, st.C + (1 / eta) • Matrix.vecMulVec d d, r, st.i + 1⟩ := by
  subst hr hs halpha hd hAd heta
  rfl

lemma normSq_triple (a b c : ℚ) : normSq ![a, b, c] = a * a + b * b + c * c := by
  simp [normSq, Matrix.dotProduct, Fin.sum_univ_three]

/-! ## Concrete evaluations: the 3-dimensional system `A = diag(1,6,8)`, `b = [1,2,1]` -/

lemma pcg3_iter1 :
    pcgIter !![(1:ℚ),0,0;0,6,0;0,0,8] ![1,2,1] (1 : Matrix (Fin 3) (Fin 3) ℚ) 1 =
      ⟨![2/11, 4/11, 2/11],
       !![1/33, 2/33, 1/33; 2/33, 4/33, 2/33; 1/33, 2/33, 1/33],
       ![1,2,1], 1⟩ := by
  rw [pcgIter, Function.iterate_one, pcg_invP_one]
  rw [pcgStep_eval _ _ _ _ ![1,2,1] ![100/101, 200/101, 100/101]
      ![100/101, 200/101, 100/101] ![100/101, 1200/101, 800/101]
      (600/101) (330000/10201)
      (by rw [pcgInit_x, Matrix.mulVec_zero, sub_zero])
      (by
        rw [Matrix.smul_mulVec_assoc, Matrix.one_mulVec]
        funext i
        fin_cases i <;> norm_num)
      (by
        simp [Matrix.dotProduct, Fin.sum_univ_three] <;> norm_num)
      (by
        rw [pcgInit_C, Matrix.zero_mul, sub_zero, Matrix.one_mulVec])
      (by
        funext i
        fin_cases i <;>
          (simp [Matrix.mulVec, Matrix.dotProduct, Fin.sum_univ_three] <;> norm_num))
      (by
        simp [Matrix.dotProduct, Fin.sum_univ_three] <;> norm_num)]
  ext i j
  · show ((pcgInit _ _).x + _) i = _
    rw [pcgInit_x]
    fin_cases i <;> norm_num
  · show ((pcgInit _ _).C + _) i j = _
    rw [pcgInit_C]
    fin_cases i <;> fin_cases j <;>
      (simp [Matrix.vecMulVec_apply] <;> norm_num)
  · rfl
  · rfl

lemma pcg3_iter2 :
    pcgIter !![(1:ℚ),0,0;0,6,0;0,0,8] ![1,2,1] (1 : Matrix (Fin 3) (Fin 3) ℚ) 2 =
      ⟨![15/22, 75/176, 9/352],
       !![31/55, 7/55, -3/22; 7/55, 57/440, 7/176; -3/22, 7/176, 29/352],
       ![9/11, -2/11, -5/11], 2⟩ := by
  have hit2 : ∀ (f : PcgState 3 → PcgState 3) (x : PcgState 3), f^[2] x = f (f^[1] x) :=
    fun f x => Function.iterate_succ_apply' f 1 x
  rw [pcgIter, hit2, ← pcgIter, pcg3_iter1, pcg_invP_one]
  rw [pcgStep_eval _ _ _ _ ![9/11, -2/11, -5/11] ![900/1111, -200/1111, -500/1111]
      ![3200/3333, 400/3333, -1000/3333] ![3200/3333, 800/1111, -8000/3333]
      (1000/1111) (6400000/3702963)
      (by
        funext i
        fin_cases i <;>
          (simp [Matrix.mulVec, Matrix.dotProduct, Fin.sum_univ_three] <;> norm_num))
      (by
        rw [Matrix.smul_mulVec_assoc, Matrix.one_mulVec]
        funext i
        fin_cases i <;> norm_num
        )
      (by
        simp [Matrix.dotProduct, Fin.sum_univ_three] <;> norm_num)
      (by
        funext i
        fin_cases i <;>
          (simp [Matrix.mulVec, Matrix.dotProduct, Matrix.sub_apply, Matrix.mul_apply,
            Matrix.one_apply, Fin.sum_univ_three] <;> norm_num))
      (by
        funext i
        fin_cases i <;>
          (simp [Matrix.mulVec, Matrix.dotProduct, Fin.sum_univ_three] <;> norm_num))
      (by
        simp [Matrix.dotProduct, Fin.sum_univ_three] <;> norm_num)]
  ext i j
  · fin_cases i <;> norm_num
  · fin_cases i <;> fin_cases j <;>
      (simp [Matrix.vecMulVec_apply] <;> norm_num)
  · rfl
  · rfl

lemma pcg3_init_r :
    (pcgInit !![(1:ℚ),0,0;0,6,0;0,0,8] ![1,2,1]).r = ![1,2,1] := by
  rw [pcgInit_r, Matrix.mulVec_zero, sub_zero]

lemma pcg3_guard0 :
    pcgGuard 0 1 ![(1:ℚ),2,1]
      (pcgIter !![(1:ℚ),0,0;0,6,0;0,0,8] ![1,2,1] (1 : Matrix (Fin 3) (Fin 3) ℚ) 0) = true := by
  simp only [pcgGuard, pcgIter, Function.iterate_zero_apply, pcg3_init_r, normSq_triple]
  norm_num [normGT]

lemma pcg3_guard1 :
    pcgGuard 0 1 ![(1:ℚ),2,1]
      (pcgIter !![(1:ℚ),0,0;0,6,0;0,0,8] ![1,2,1] (1 : Matrix (Fin 3) (Fin 3) ℚ) 1) = true := by
  simp only [pcgGuard, pcg3_iter1, normSq_triple]
  norm_num [normGT]

lemma pcg3_guard2 :
    pcgGuard 0 1 ![(1:ℚ),2,1]
      (pcgIter !![(1:ℚ),0,0;0,6,0;0,0,8] ![1,2,1] (1 : Matrix (Fin 3) (Fin 3) ℚ) 2) = false := by
  simp only [pcgGuard, pcg3_iter2, normSq_triple]
  norm_num [normGT]

lemma pcg3_resid :
    normSq (![(1:ℚ),2,1] -
      (!![(1:ℚ),0,0;0,6,0;0,0,8]).mulVec
        ((pcgIter !![(1:ℚ),0,0;0,6,0;0,0,8] ![1,2,1] (1 : Matrix (Fin 3) (Fin 3) ℚ) 2).x)) =
      735/704 := by
  rw [pcg3_iter2]
  have hAx : (!![(1:ℚ),0,0;0,6,0;0,0,8]).mulVec ![15/22, 75/176, 9/352] =
      ![15/22, 225/88, 9/44] := by
    funext i
    fin_cases i <;>
      (simp [Matrix.mulVec, Matrix.dotProduct, Fin.sum_univ_three] <;> norm_num)
  show normSq (![(1:ℚ),2,1] - (!![(1:ℚ),0,0;0,6,0;0,0,8]).mulVec ![15/22, 75/176, 9/352]) = _
  rw [hAx]
  have hsub : ![(1:ℚ),2,1] - ![15/22, 225/88, 9/44] = ![7/22, -49/88, 35/44] := by
    funext i
    fin_cases i <;> norm_num
  rw [hsub, normSq_triple]
  norm_num

/-- The full run of `pcg` on the 1-dimensional system: two loop bodies, then
the tolerance test exits and `(x, C) = ([1], [[1]])` is returned. -/
lemma pcg1_run :
    pcg !![(1:ℚ)] ![1] (some 10) (1/1000000) (1/1000000)
      (1 : Matrix (Fin 1) (Fin 1) ℚ) 3 = some (![1], !![1]) := by
  simp only [pcg, Option.getD_some]
  rw [pcgLoop_exit !![(1:ℚ)] (pcg_invP 1) ![1] 10 (1/1000000) (1/1000000) 2 3
      (pcgInit !![(1:ℚ)] ![1]) (by omega)
      (fun j hj => by
        interval_cases j
        · exact pcg1_guard0
        · exact pcg1_guard1)
      pcg1_guard2
      (fun j h0 h2 => by
        have hi : (pcgInit !![(1:ℚ)] ![1]).i = 0 := rfl
        omega)]
  have hfold : (pcgStep !![(1:ℚ)] (pcg_invP 1) ![1])^[2] (pcgInit !![(1:ℚ)] ![1]) =
      pcgIter !![(1:ℚ)] ![1] (1 : Matrix (Fin 1) (Fin 1) ℚ) 2 := rfl
  rw [hfold, pcg1_iter2]

/-- One body of `PCG.solve` on the 1-dimensional system, as a rewrite on the
explicit state record. -/
lemma solve1_step_lit :
    solveStep !![(1:ℚ)] 1 ⟨![0], ![1], ![1], ![1], 1, 0⟩ =
      ⟨![1], ![0], ![0], ![0], 0, 1⟩ := by
  have h := solve1_iter1
  rw [solveIter, Function.iterate_one, solve1_init] at h
  exact h

/-- The full run of `PCG.solve` on the 1-dimensional system with `M = I`,
`maxiter = 10`, `tol = 1e-8`: one body, then the tolerance test succeeds and
the loop exits normally with `self.iters = 1`. -/
lemma solve1_run :
    PCG_solve (some !![(1:ℚ)]) (some ![1]) none (some 10) (1/100000000) 2 =
      some ⟨none, some ![1], some 1⟩ := by
  rw [PCG_solve_eq_loop _ _ _ _ _ _ (by
    rw [Matrix.det_fin_one]
    norm_num)]
  simp only [Option.getD_some, Option.getD_none]
  rw [solve1_init]
  have hg0 : (sqrtGT (1 : ℚ) (1/100000000) = true) ∧ (0 : ℕ) < 10 := by
    constructor
    · norm_num [sqrtGT]
    · omega
  simp only [solveLoop, if_pos hg0, solve1_step_lit]
  norm_num [sqrtGT]

/-! ## Claims -/

/-- C1 (counterexample): the claim as stated is false.  At `n = k = 1`,
`A = [[1]]`, `U = [[1]]`, `C = [[1]]`, `V = [[-1]]`, both `A` and `C` are
invertible, yet `A + U C Vᵀ = [[0]]` is singular, so no returned matrix can
multiply it to the identity (on this input the inner `np.linalg.inv` of
`mat_inv_lemma` is applied to the singular `[[0]]`, where NumPy raises
`LinAlgError`; the model returns the junk value instead — either way the
product is not the identity). -/
theorem C1_counterexample :
    IsUnit (!![(1:ℚ)]).det ∧ IsUnit (!![(1:ℚ)]).det ∧
    ¬ ((!![(1:ℚ)] + !![(1:ℚ)] * !![(1:ℚ)] * (!![(-1:ℚ)]).transpose) *
        mat_inv_lemma !![(1:ℚ)] !![(1:ℚ)] !![(1:ℚ)] !![(-1:ℚ)] = 1) := by
  have hdet : IsUnit (!![(1:ℚ)]).det := by
    rw [Matrix.det_fin_one]
    simp
  refine ⟨hdet, hdet, ?_⟩
  have ht : (!![(-1:ℚ)]).transpose = !![-1] := by
    ext i j
    fin_cases i
    fin_cases j
    simp [Matrix.transpose_apply]
  have hW : !![(1:ℚ)] + !![(1:ℚ)] * !![(1:ℚ)] * (!![(-1:ℚ)]).transpose = 0 := by
    rw [ht]
    ext i j
    fin_cases i
    fin_cases j
    simp [Matrix.mul_apply]
  rw [hW, Matrix.zero_mul]
  intro h
  have h00 := Matrix.ext_iff.2 h 0 0
  simp [Matrix.one_apply] at h00

/-- C1 (amended): for invertible `A` (n×n) and `C` (k×k) and any `U`, `V`
(n×k) such that the inner matrix `C⁻¹ + Vᵀ A⁻¹ U` is also invertible
(equivalently, `A + U C Vᵀ` is invertible), `mat_inv_lemma(A, U, C, V)`
is exactly `(A + U C Vᵀ)⁻¹` via the Woodbury formula, and multiplying
`A + U C Vᵀ` by it yields the identity. -/
theorem C1_amended {n k : ℕ} (A : Matrix (Fin n) (Fin n) ℚ)
    (U : Matrix (Fin n) (Fin k) ℚ) (C : Matrix (Fin k) (Fin k) ℚ)
    (V : Matrix (Fin n) (Fin k) ℚ)
    (hA : IsUnit A.det) (hC : IsUnit C.det)
    (hS : IsUnit (C⁻¹ + V.transpose * A⁻¹ * U).det) :
    (A + U * C * V.transpose) * mat_inv_lemma A U C V = 1 ∧
    mat_inv_lemma A U C V = (A + U * C * V.transpose)⁻¹ := by
  have hA' : IsUnit A := (Matrix.isUnit_iff_isUnit_det A).mpr hA
  have hC' : IsUnit C := (Matrix.isUnit_iff_isUnit_det C).mpr hC
  have hS' : IsUnit (C⁻¹ + V.transpose * A⁻¹ * U) :=
    (Matrix.isUnit_iff_isUnit_det _).mpr hS
  have hmil : mat_inv_lemma A U C V = (A + U * C * V.transpose)⁻¹ := by
    rw [mat_inv_lemma_eq, Matrix.add_mul_mul_inv_eq_sub A U C V.transpose hA' hC' hS']
  obtain ⟨iA⟩ := hA'.nonempty_invertible
  obtain ⟨iC⟩ := hC'.nonempty_invertible
  have iS : Invertible (⅟C + V.transpose * ⅟A * U) := by
    rw [Matrix.invOf_eq_nonsing_inv, Matrix.invOf_eq_nonsing_inv]
    exact hS'.invertible
  have iSum : Invertible (A + U * C * V.transpose) :=
    Matrix.invertibleAddMulMul A U C V.transpose
  have hSumDet : IsUnit (A + U * C * V.transpose).det :=
    (Matrix.isUnit_iff_isUnit_det _).mp (isUnit_of_invertible _)
  exact ⟨by rw [hmil]; exact Matrix.mul_nonsing_inv _ hSumDet, hmil⟩

/-- C1 (witness): the amended theorem applied at `A = [[2]]`,
`U = C = V = [[1]]`, where `A + U C Vᵀ = [[3]]`. -/
theorem C1_witness :
    (IsUnit (!![(2:ℚ)]).det ∧ IsUnit (!![(1:ℚ)]).det ∧
      IsUnit ((!![(1:ℚ)])⁻¹ + (!![(1:ℚ)]).transpose * (!![(2:ℚ)])⁻¹ * !![(1:ℚ)]).det) ∧
    ((!![(2:ℚ)] + !![(1:ℚ)] * !![(1:ℚ)] * (!![(1:ℚ)]).transpose) *
        mat_inv_lemma !![(2:ℚ)] !![(1:ℚ)] !![(1:ℚ)] !![(1:ℚ)] = 1 ∧
      mat_inv_lemma !![(2:ℚ)] !![(1:ℚ)] !![(1:ℚ)] !![(1:ℚ)] =
        (!![(2:ℚ)] + !![(1:ℚ)] * !![(1:ℚ)] * (!![(1:ℚ)]).transpose)⁻¹) := by
  have h1 : IsUnit (!![(2:ℚ)]).det := by
    rw [Matrix.det_fin_one]
    norm_num
  have h2 : IsUnit (!![(1:ℚ)]).det := by
    rw [Matrix.det_fin_one]
    simp
  have hinv2 : (!![(2:ℚ)])⁻¹ = !![1/2] := by
    rw [← matInv_eq_inv, matInv_fin_one]
    norm_num
  have hinv1 : (!![(1:ℚ)])⁻¹ = !![1] := by
    rw [← matInv_eq_inv, matInv_fin_one]
    norm_num
  have h3 : IsUnit ((!![(1:ℚ)])⁻¹ + (!![(1:ℚ)]).transpose * (!![(2:ℚ)])⁻¹ * !![(1:ℚ)]).det := by
    rw [hinv1, hinv2]
    have : (!![(1:ℚ)] + (!![(1:ℚ)]).transpose * !![(1/2:ℚ)] * !![(1:ℚ)]).det = 3/2 := by
      rw [Matrix.det_fin_one]
      simp [Matrix.mul_apply, Matrix.transpose_apply]
      norm_num
    rw [this]
    norm_num
  exact ⟨⟨h1, h2, h3⟩, C1_amended !![(2:ℚ)] !![(1:ℚ)] !![(1:ℚ)] !![(1:ℚ)] h1 h2 h3⟩

/-- C4 (counterexample): the claim's gloss that the regularization weight on
the identity is `0.01² = 1e-4` is false: the `invP` actually computed by
`pcg` (here at `n = p = 1`, `P = I`) differs from the result of
`mat_inv_lemma` applied with ridge weight `(0.01)² • I`. -/
theorem C4_counterexample :
    pcg_invP (1 : Matrix (Fin 1) (Fin 1) ℚ) ≠
      mat_inv_lemma ((((1:ℚ)/100) ^ 2) • 1) (1 : Matrix (Fin 1) (Fin 1) ℚ) 1 1 := by
  rw [pcg_invP_one]
  have h : (((1:ℚ)/100) ^ 2) = 1/10000 := by norm_num
  rw [h, mat_inv_lemma_smul_one (1/10000) (by norm_num) (by norm_num)]
  intro hcontra
  have h00 := Matrix.ext_iff.2 hcontra 0 0
  simp [Matrix.one_apply] at h00
  norm_num at h00

/-- C4 (amended): `invP` is computed by `mat_inv_lemma` applied to
`(0.1² · I_n, P, I_p, P)`, i.e. the fixed regularization weight on the
identity is `0.1² = 0.01` (not `0.01² = 1e-4`), with rank `p` the number of
columns of `P`; concretely, for `P = I` the result is the exact inverse
`(100/101) • I` of `(0.01 + 1) • I`. -/
theorem C4_amended :
    (∀ (n p : ℕ) (P : Matrix (Fin n) (Fin p) ℚ),
        pcg_invP P = mat_inv_lemma (((1:ℚ)/10) ^ 2 • 1) P 1 P) ∧
    ((1:ℚ)/10) ^ 2 = 1/100 ∧
    pcg_invP (1 : Matrix (Fin 2) (Fin 2) ℚ) = ((100:ℚ)/101) • 1 := by
  exact ⟨fun n p P => rfl, by norm_num, pcg_invP_one⟩

/-- C2: on a system where the iteration cap is reached with the tolerance
never met (the guard of each solver holds at every state up to and including
the cap), the implicit-inverse solver `pcg` returns the current `(x, C)`
without any exception — its return type carries no error and the raise in
the source is commented out — while `PCG.solve` raises the non-convergence
error. -/
theorem C2 {n p : ℕ} (A : Matrix (Fin n) (Fin n) ℚ) (b : Fin n → ℚ) (maxiter : ℕ)
    (rtol atol : ℚ) (P : Matrix (Fin n) (Fin p) ℚ)
    (M? : Option (Matrix (Fin n) (Fin n) ℚ)) (tol : ℚ)
    (hm : 1 ≤ maxiter)
    (hdet : A.det ≠ 0)
    (hpcg : ∀ k, k ≤ maxiter → pcgGuard rtol atol b (pcgIter A b P k) = true)
    (hsol : ∀ k, k ≤ maxiter → sqrtGT ((solveIter A (M?.getD 1) b k).delta) tol = true) :
    pcg A b (some maxiter) rtol atol P maxiter =
      some ((pcgIter A b P maxiter).x, (pcgIter A b P maxiter).C) ∧
    PCG_solve (some A) (some b) M? (some maxiter) tol maxiter =
      some ⟨some SolverError.nonConvergence,
        some ((solveIter A (M?.getD 1) b maxiter).x), some maxiter⟩ := by
  constructor
  · simp only [pcg, Option.getD_some]
    exact pcgLoop_cap A (pcg_invP P) b maxiter rtol atol maxiter (pcgInit A b) hm
      (by have hi : (pcgInit A b).i = 0 := rfl; omega)
      (fun k hk => hpcg k (by omega))
  · rw [PCG_solve_eq_loop A b M? (some maxiter) tol maxiter hdet]
    simp only [Option.getD_some]
    exact solveLoop_cap A (M?.getD 1) maxiter tol maxiter (solveInit A (M?.getD 1) b)
      hm (by have hi : (solveInit A (M?.getD 1) b).i = 0 := rfl; omega)
      (fun k hk => hsol k (by omega))

/-- C2 (witness): the system `A = [[4,1],[1,3]]`, `b = [1,2]` with
`maxiter = 1`: neither solver's guard is satisfied at the first two states
(the residual norms stay above the tolerances), `pcg` returns
`(x₁, C₁)` and `PCG.solve` raises. -/
theorem C2_witness :
    ((1:ℕ) ≤ 1 ∧ (!![(4:ℚ),1;1,3]).det ≠ 0 ∧
      (∀ k, k ≤ 1 → pcgGuard (1/1000000) (1/1000000) ![(1:ℚ),2]
        (pcgIter !![(4:ℚ),1;1,3] ![1,2] (1 : Matrix (Fin 2) (Fin 2) ℚ) k) = true) ∧
      (∀ k, k ≤ 1 → sqrtGT ((solveIter !![(4:ℚ),1;1,3] ((none : Option (Matrix (Fin 2) (Fin 2) ℚ)).getD 1) ![1,2] k).delta)
        (1/100000000) = true)) ∧
    (pcg !![(4:ℚ),1;1,3] ![1,2] (some 1) (1/1000000) (1/1000000)
        (1 : Matrix (Fin 2) (Fin 2) ℚ) 1 =
      some ((pcgIter !![(4:ℚ),1;1,3] ![1,2] (1 : Matrix (Fin 2) (Fin 2) ℚ) 1).x,
        (pcgIter !![(4:ℚ),1;1,3] ![1,2] (1 : Matrix (Fin 2) (Fin 2) ℚ) 1).C) ∧
      PCG_solve (some !![(4:ℚ),1;1,3]) (some ![1,2]) none (some 1) (1/100000000) 1 =
        some ⟨some SolverError.nonConvergence,
          some ((solveIter !![(4:ℚ),1;1,3] ((none : Option (Matrix (Fin 2) (Fin 2) ℚ)).getD 1) ![1,2] 1).x), some 1⟩) := by
  have hdet : (!![(4:ℚ),1;1,3]).det ≠ 0 := by
    rw [Matrix.det_fin_two_of]
    norm_num
  have hpcg : ∀ k, k ≤ 1 → pcgGuard (1/1000000) (1/1000000) ![(1:ℚ),2]
      (pcgIter !![(4:ℚ),1;1,3] ![1,2] (1 : Matrix (Fin 2) (Fin 2) ℚ) k) = true := by
    intro k hk
    interval_cases k
    · exact pcg2_guard0
    · exact pcg2_guard1
  have hsol : ∀ k, k ≤ 1 → sqrtGT ((solveIter !![(4:ℚ),1;1,3] ((none : Option (Matrix (Fin 2) (Fin 2) ℚ)).getD 1) ![1,2] k).delta)
      (1/100000000) = true := by
    intro k hk
    interval_cases k
    · show sqrtGT ((solveIter !![(4:ℚ),1;1,3] 1 ![1,2] 0).delta) (1/100000000) = true
      have h0 : solveIter !![(4:ℚ),1;1,3] 1 ![1,2] 0 = ⟨![0,0], ![1,2], ![1,2], ![1,2], 5, 0⟩ :=
        solve2_init
      rw [h0]
      exact solve2_guard0
    · show sqrtGT ((solveIter !![(4:ℚ),1;1,3] 1 ![1,2] 1).delta) (1/100000000) = true
      rw [solve2_iter1]
      exact solve2_guard1
  exact ⟨⟨le_refl 1, hdet, hpcg, hsol⟩,
    C2 !![(4:ℚ),1;1,3] ![1,2] 1 (1/1000000) (1/1000000) 1 none (1/100000000)
      (le_refl 1) hdet hpcg hsol⟩

/-- C5 (counterexample): the claim's second half is false: on `A = [[1]]`,
`b = [1]`, `M = I`, `maxiter = 1`, `tol = 1e-8`, the tolerance is satisfied
by the iterate computed in iteration 1 (≤ maxiter), yet `PCG.solve` still
raises the non-convergence error, because the raise at `i == maxiter` fires
before the tolerance is ever re-checked. -/
theorem C5_counterexample :
    sqrtGT ((solveIter !![(1:ℚ)] 1 ![1] 1).delta) (1/100000000) = false ∧
    PCG_solve (some !![(1:ℚ)]) (some ![1]) none (some 1) (1/100000000) 1 =
      some ⟨some SolverError.nonConvergence, some ![1], some 1⟩ := by
  constructor
  · rw [solve1_iter1]
    norm_num [sqrtGT]
  · rw [PCG_solve_eq_loop _ _ _ _ _ _ (by
      rw [Matrix.det_fin_one]
      norm_num)]
    simp only [Option.getD_some, Option.getD_none]
    rw [solveLoop_cap !![(1:ℚ)] 1 1 (1/100000000) 1 (solveInit !![(1:ℚ)] 1 ![1])
      (le_refl 1) (by have hi : (solveInit !![(1:ℚ)] 1 ![1]).i = 0 := rfl; omega)
      (fun k hk => by
        interval_cases k
        have h0 : solveIter !![(1:ℚ)] 1 ![1] 0 = ⟨![0], ![1], ![1], ![1], 1, 0⟩ :=
          solve1_init
        show sqrtGT ((solveIter !![(1:ℚ)] 1 ![1] 0).delta) (1/100000000) = true
        rw [h0]
        norm_num [sqrtGT])]
    have hfold : (solveStep !![(1:ℚ)] 1)^[1] (solveInit !![(1:ℚ)] 1 ![1]) =
        solveIter !![(1:ℚ)] 1 ![1] 1 := rfl
    rw [hfold, solve1_iter1]

/-- C5 (amended): `PCG.solve` raises the non-convergence error exactly when
`maxiter ≥ 1` and the tolerance test `√delta > tol` holds at every loop
check before the cap (states `0, …, maxiter − 1`), i.e. exactly when the
loop runs all `maxiter` bodies; in particular it raises at the cap even when
the final iterate satisfies the tolerance, and it completes without raising
when `maxiter = 0` (the loop never runs) or when the tolerance is met at
some check before the cap. -/
theorem C5_amended {n : ℕ} (A : Matrix (Fin n) (Fin n) ℚ) (b : Fin n → ℚ)
    (M? : Option (Matrix (Fin n) (Fin n) ℚ)) (maxiter : ℕ) (tol : ℚ)
    (hdet : A.det ≠ 0) :
    ∃ res, PCG_solve (some A) (some b) M? (some maxiter) tol (maxiter + 1) = some res ∧
      (res.err = some SolverError.nonConvergence ↔
        (0 < maxiter ∧ ∀ k, k < maxiter →
          sqrtGT ((solveIter A (M?.getD 1) b k).delta) tol = true)) := by
  rw [PCG_solve_eq_loop A b M? (some maxiter) tol (maxiter + 1) hdet]
  simp only [Option.getD_some]
  have hi0 : (solveInit A (M?.getD 1) b).i = 0 := rfl
  obtain ⟨res, hres, hiff⟩ := solveLoop_err_iff A (M?.getD 1) maxiter tol (maxiter + 1)
    (solveInit A (M?.getD 1) b) (by omega) (by omega)
  refine ⟨res, hres, hiff.trans ?_⟩
  constructor
  · rintro ⟨h1, h2⟩
    exact ⟨by omega, fun k hk => h2 k (by omega)⟩
  · rintro ⟨h1, h2⟩
    exact ⟨by omega, fun k hk => h2 k (by omega)⟩

/-- C5 (witness): the amended characterization applied at `A = [[1]]`,
`b = [1]`, `M = I`, `maxiter = 10`, `tol = 1e-8`. -/
theorem C5_witness :
    (!![(1:ℚ)]).det ≠ 0 ∧
    ∃ res, PCG_solve (some !![(1:ℚ)]) (some ![1]) none (some 10) (1/100000000) 11 =
      some res ∧
      (res.err = some SolverError.nonConvergence ↔
        (0 < 10 ∧ ∀ k, k < 10 →
          sqrtGT ((solveIter !![(1:ℚ)] ((none : Option (Matrix (Fin 1) (Fin 1) ℚ)).getD 1) ![1] k).delta) (1/100000000) = true)) := by
  have hdet : (!![(1:ℚ)]).det ≠ 0 := by
    rw [Matrix.det_fin_one]
    norm_num
  exact ⟨hdet, C5_amended !![(1:ℚ)] ![1] none 10 (1/100000000) hdet⟩

/-- C6 (counterexample): at `maxiter = 0` the claim fails: on `A = [[1]]`,
`b = [1]` the Python loop (whose condition does not test `i < maxiter`; the
cap is the `if i == maxiter` check after the increment, which never fires
for `maxiter = 0` since `i ≥ 1` there) runs two bodies and returns
`x = [1] ≠ 0`, more than `maxiter = 0` iterations. -/
theorem C6_counterexample :
    pcg !![(1:ℚ)] ![1] (some 0) (1/1000000) (1/1000000)
      (1 : Matrix (Fin 1) (Fin 1) ℚ) 3 = some (![1], !![1]) ∧
    ![(1:ℚ)] ≠ (0 : Fin 1 → ℚ) := by
  constructor
  · simp only [pcg, Option.getD_some]
    rw [pcgLoop_exit !![(1:ℚ)] (pcg_invP 1) ![1] 0 (1/1000000) (1/1000000) 2 3
        (pcgInit !![(1:ℚ)] ![1]) (by omega)
        (fun j hj => by
          interval_cases j
          · exact pcg1_guard0
          · exact pcg1_guard1)
        pcg1_guard2
        (fun j h0 h2 => by
          have hi : (pcgInit !![(1:ℚ)] ![1]).i = 0 := rfl
          omega)]
    have hfold : (pcgStep !![(1:ℚ)] (pcg_invP 1) ![1])^[2] (pcgInit !![(1:ℚ)] ![1]) =
        pcgIter !![(1:ℚ)] ![1] (1 : Matrix (Fin 1) (Fin 1) ℚ) 2 := rfl
    rw [hfold, pcg1_iter2]
  · intro h
    have h0 := congrFun h 0
    norm_num at h0

/-- C6 (amended): for `maxiter ≥ 1`, `pcg` terminates within at most
`maxiter` loop bodies (fuel `maxiter` suffices), and when the guard holds at
every state before the cap it returns the current `(x, C)` of the state at
the cap, without error. -/
theorem C6_amended {n p : ℕ} (A : Matrix (Fin n) (Fin n) ℚ) (b : Fin n → ℚ)
    (maxiter : ℕ) (rtol atol : ℚ) (P : Matrix (Fin n) (Fin p) ℚ)
    (hm : 1 ≤ maxiter) :
    (∃ v, pcg A b (some maxiter) rtol atol P maxiter = some v) ∧
    ((∀ k, k < maxiter → pcgGuard rtol atol b (pcgIter A b P k) = true) →
      pcg A b (some maxiter) rtol atol P maxiter =
        some ((pcgIter A b P maxiter).x, (pcgIter A b P maxiter).C)) := by
  constructor
  · simp only [pcg, Option.getD_some]
    exact pcgLoop_total A (pcg_invP P) b maxiter rtol atol maxiter (pcgInit A b) hm
      (by have hi : (pcgInit A b).i = 0 := rfl; omega)
  · intro hg
    simp only [pcg, Option.getD_some]
    exact pcgLoop_cap A (pcg_invP P) b maxiter rtol atol maxiter (pcgInit A b) hm
      (by have hi : (pcgInit A b).i = 0 := rfl; omega) hg

/-- C6 (witness): the amended theorem applied at `maxiter = 1` on the
1-dimensional system. -/
theorem C6_witness :
    (1:ℕ) ≤ 1 ∧
    ((∃ v, pcg !![(1:ℚ)] ![1] (some 1) (1/1000000) (1/1000000)
        (1 : Matrix (Fin 1) (Fin 1) ℚ) 1 = some v) ∧
      ((∀ k, k < 1 → pcgGuard (1/1000000) (1/1000000) ![(1:ℚ)]
          (pcgIter !![(1:ℚ)] ![1] (1 : Matrix (Fin 1) (Fin 1) ℚ) k) = true) →
        pcg !![(1:ℚ)] ![1] (some 1) (1/1000000) (1/1000000)
            (1 : Matrix (Fin 1) (Fin 1) ℚ) 1 =
          some ((pcgIter !![(1:ℚ)] ![1] (1 : Matrix (Fin 1) (Fin 1) ℚ) 1).x,
            (pcgIter !![(1:ℚ)] ![1] (1 : Matrix (Fin 1) (Fin 1) ℚ) 1).C))) :=
  ⟨le_refl 1, C6_amended !![(1:ℚ)] ![1] 1 (1/1000000) (1/1000000) 1 (le_refl 1)⟩

/-- C7 (spec-modelled assertions): `PCG.solve` validates fail-fast, before
any iteration: a missing `A` or `b` yields the missing-operand error; a
non-square `A` yields the shape error; a singular square `A` yields the
singular-matrix error, with the instance fields `x` and `iters` still
unassigned; and for any invertible square `A` — with no symmetry or
positive-definiteness requirement, those checks being commented out — the
call reaches the CG loop. -/
theorem C7 :
    (∀ (m k : ℕ) (b? : Option (Fin m → ℚ)),
        solveChecks m k none b? = some SolverError.missingOperand) ∧
    (∀ (m k : ℕ) (A : Matrix (Fin m) (Fin k) ℚ),
        solveChecks m k (some A) none = some SolverError.missingOperand) ∧
    (∀ (m k : ℕ) (A : Matrix (Fin m) (Fin k) ℚ) (b : Fin m → ℚ), m ≠ k →
        solveChecks m k (some A) (some b) = some SolverError.shape) ∧
    (∀ (n : ℕ) (A : Matrix (Fin n) (Fin n) ℚ) (b : Fin n → ℚ), A.det = 0 →
        solveChecks n n (some A) (some b) = some SolverError.singular ∧
        ∀ (M? : Option (Matrix (Fin n) (Fin n) ℚ)) (maxiter? : Option ℕ) (tol : ℚ)
          (fuel : ℕ),
          PCG_solve (some A) (some b) M? maxiter? tol fuel =
            some ⟨some SolverError.singular, none, none⟩) ∧
    (∀ (n : ℕ) (A : Matrix (Fin n) (Fin n) ℚ) (b : Fin n → ℚ), A.det ≠ 0 →
        ∀ (M? : Option (Matrix (Fin n) (Fin n) ℚ)) (maxiter? : Option ℕ) (tol : ℚ)
          (fuel : ℕ),
          PCG_solve (some A) (some b) M? maxiter? tol fuel =
            solveLoop A (M?.getD 1) (maxiter?.getD (10 * n)) tol fuel
              (solveInit A (M?.getD 1) b)) := by
  refine ⟨fun m k b? => rfl, fun m k A => rfl, fun m k A b hmk => ?_, ?_, ?_⟩
  · simp only [solveChecks]
    rw [dif_neg hmk]
  · intro n A b hdet
    constructor
    · show (if h : n = n then
          (if (Matrix.of fun i j : Fin n => A i (Fin.cast h j)).det = 0 then
            some SolverError.singular else none)
        else some SolverError.shape) = some SolverError.singular
      rw [dif_pos rfl]
      have hAA : (Matrix.of fun i j : Fin n => A i (Fin.cast rfl j)) = A := rfl
      rw [hAA, if_pos hdet]
    · intro M? maxiter? tol fuel
      simp only [PCG_solve, if_pos hdet]
  · intro n A b hdet M? maxiter? tol fuel
    exact PCG_solve_eq_loop A b M? maxiter? tol fuel hdet

/-- C7 (witness): the conditional parts of C7 applied at concrete inputs:
a 1×2 matrix triggers the shape error, the singular `A = [[0]]` triggers the
singular-matrix error before any iteration, and the invertible but
non-symmetric `A = [[1,2],[0,1]]` reaches the loop. -/
theorem C7_witness :
    ((1:ℕ) ≠ 2 ∧
      solveChecks 1 2 (some !![(0:ℚ),0]) (some ![1]) = some SolverError.shape) ∧
    ((!![(0:ℚ)]).det = 0 ∧
      PCG_solve (some !![(0:ℚ)]) (some ![1]) none none (1/10) 5 =
        some ⟨some SolverError.singular, none, none⟩) ∧
    ((!![(1:ℚ),2;0,1]).det ≠ 0 ∧
      PCG_solve (some !![(1:ℚ),2;0,1]) (some ![1,1]) none none (1/10) 5 =
        solveLoop !![(1:ℚ),2;0,1] ((none : Option (Matrix (Fin 2) (Fin 2) ℚ)).getD 1)
          ((none : Option ℕ).getD (10 * 2)) (1/10) 5
          (solveInit !![(1:ℚ),2;0,1] ((none : Option (Matrix (Fin 2) (Fin 2) ℚ)).getD 1)
            ![1,1])) := by
  have h12 : (1:ℕ) ≠ 2 := by omega
  have hz : (!![(0:ℚ)]).det = 0 := by
    rw [Matrix.det_fin_one]
    simp
  have hnz : (!![(1:ℚ),2;0,1]).det ≠ 0 := by
    rw [Matrix.det_fin_two_of]
    norm_num
  exact ⟨⟨h12, C7.2.2.1 1 2 !![(0:ℚ),0] ![1] h12⟩,
    ⟨hz, (C7.2.2.2.1 1 !![(0:ℚ)] ![1] hz).2 none none (1/10) 5⟩,
    ⟨hnz, C7.2.2.2.2 2 !![(1:ℚ),2;0,1] ![1,1] hnz none none (1/10) 5⟩⟩

/-- C8: the inverse estimate `C` of `pcg` starts as the zero matrix and each
body adds only the symmetric rank-1 matrix `(1/eta) • (d ⊗ d)`, so `C` is
symmetric after every iteration and, on every input on which the function
returns, the returned `C` is symmetric. -/
theorem C8 {n p : ℕ} (A : Matrix (Fin n) (Fin n) ℚ) (b : Fin n → ℚ)
    (maxiter? : Option ℕ) (rtol atol : ℚ) (P : Matrix (Fin n) (Fin p) ℚ)
    (fuel : ℕ) (x : Fin n → ℚ) (C : Matrix (Fin n) (Fin n) ℚ) :
    (∀ k, (pcgIter A b P k).C.IsSymm) ∧
    (pcg A b maxiter? rtol atol P fuel = some (x, C) → C.IsSymm) := by
  refine ⟨pcgIter_symm A b P, fun h => ?_⟩
  simp only [pcg] at h
  exact pcgLoop_symm A (pcg_invP P) b _ rtol atol fuel (pcgInit A b) x C h
    (by rw [pcgInit_C]; exact Matrix.isSymm_zero)

/-- C8 (witness): the returned `C = [[1]]` of the 1-dimensional run is
symmetric, by the claim theorem applied to that run. -/
theorem C8_witness :
    (pcg !![(1:ℚ)] ![1] (some 10) (1/1000000) (1/1000000)
        (1 : Matrix (Fin 1) (Fin 1) ℚ) 3 = some (![1], !![1])) ∧
    (!![(1:ℚ)]).IsSymm :=
  ⟨pcg1_run,
    (C8 !![(1:ℚ)] ![1] (some 10) (1/1000000) (1/1000000) 1 3 ![1] !![1]).2 pcg1_run⟩

/-- C9: whenever `‖b‖ ≤ max(rtol·‖b‖, atol)` — in particular for `b = 0` —
the initial residual `r = b` already fails the loop guard, so `pcg` performs
zero loop iterations and returns the initial `x = 0` (length n) and the
n×n zero matrix `C = 0`. -/
theorem C9 {n p : ℕ} (A : Matrix (Fin n) (Fin n) ℚ) (b : Fin n → ℚ)
    (maxiter? : Option ℕ) (rtol atol : ℚ) (P : Matrix (Fin n) (Fin p) ℚ) (fuel : ℕ)
    (hb : Real.sqrt (normSq b : ℚ) ≤
      max ((rtol : ℝ) * Real.sqrt (normSq b : ℚ)) (atol : ℝ)) :
    pcg A b maxiter? rtol atol P (fuel + 1) = some (0, 0) := by
  have hrb : (pcgInit A b).r = b := by
    rw [pcgInit_r, Matrix.mulVec_zero, sub_zero]
  have hguard : pcgGuard rtol atol b (pcgInit A b) = false := by
    simp only [pcgGuard, hrb]
    rw [Bool.eq_false_iff]
    intro h
    rw [normGT_iff_real _ _ _ _ (normSq_nonneg b)] at h
    exact absurd h (not_lt.mpr hb)
  simp only [pcg]
  simp only [pcgLoop, hguard]
  rw [if_neg (by simp)]
  rw [pcgInit_x, pcgInit_C]

/-- C9 (witness): the claim theorem applied at `A = [[5]]`, `b = 0`. -/
theorem C9_witness :
    (Real.sqrt (normSq ![(0:ℚ)] : ℚ) ≤
      max (((1/1000000 : ℚ) : ℝ) * Real.sqrt (normSq ![(0:ℚ)] : ℚ))
        ((1/1000000 : ℚ) : ℝ)) ∧
    pcg !![(5:ℚ)] ![0] none (1/1000000) (1/1000000)
      (1 : Matrix (Fin 1) (Fin 1) ℚ) 1 = some (0, 0) := by
  have hb : Real.sqrt (normSq ![(0:ℚ)] : ℚ) ≤
      max (((1/1000000 : ℚ) : ℝ) * Real.sqrt (normSq ![(0:ℚ)] : ℚ))
        ((1/1000000 : ℚ) : ℝ) := by
    rw [normSq_single]
    norm_num [Real.sqrt_zero]
  exact ⟨hb, C9 !![(5:ℚ)] ![0] none (1/1000000) (1/1000000) 1 0 hb⟩

/-- C10: when `PCG.solve` raises at the iteration cap, the instance has
already been mutated: `self.iters` is `maxiter` and `self.x` is the iterate
computed in the final (non-converged) iteration, both observable alongside
the raised error. -/
theorem C10 {n : ℕ} (A : Matrix (Fin n) (Fin n) ℚ) (b : Fin n → ℚ)
    (M? : Option (Matrix (Fin n) (Fin n) ℚ)) (tol : ℚ) (maxiter : ℕ)
    (hm : 1 ≤ maxiter) (hdet : A.det ≠ 0)
    (hg : ∀ k, k < maxiter → sqrtGT ((solveIter A (M?.getD 1) b k).delta) tol = true) :
    PCG_solve (some A) (some b) M? (some maxiter) tol maxiter =
      some ⟨some SolverError.nonConvergence,
        some ((solveIter A (M?.getD 1) b maxiter).x), some maxiter⟩ := by
  rw [PCG_solve_eq_loop A b M? (some maxiter) tol maxiter hdet]
  simp only [Option.getD_some]
  exact solveLoop_cap A (M?.getD 1) maxiter tol maxiter (solveInit A (M?.getD 1) b)
    hm (by have hi : (solveInit A (M?.getD 1) b).i = 0 := rfl; omega) hg

/-- C10 (witness): the claim theorem applied at `A = [[4,1],[1,3]]`,
`b = [1,2]`, `M = I`, `maxiter = 1`: the raise leaves `iters = 1` and
`x = x₁` observable. -/
theorem C10_witness :
    ((1:ℕ) ≤ 1 ∧ (!![(4:ℚ),1;1,3]).det ≠ 0 ∧
      (∀ k, k < 1 → sqrtGT ((solveIter !![(4:ℚ),1;1,3]
        ((none : Option (Matrix (Fin 2) (Fin 2) ℚ)).getD 1) ![1,2] k).delta)
        (1/100000000) = true)) ∧
    PCG_solve (some !![(4:ℚ),1;1,3]) (some ![1,2]) none (some 1) (1/100000000) 1 =
      some ⟨some SolverError.nonConvergence,
        some ((solveIter !![(4:ℚ),1;1,3]
          ((none : Option (Matrix (Fin 2) (Fin 2) ℚ)).getD 1) ![1,2] 1).x), some 1⟩ := by
  have hdet : (!![(4:ℚ),1;1,3]).det ≠ 0 := by
    rw [Matrix.det_fin_two_of]
    norm_num
  have hg : ∀ k, k < 1 → sqrtGT ((solveIter !![(4:ℚ),1;1,3]
      ((none : Option (Matrix (Fin 2) (Fin 2) ℚ)).getD 1) ![1,2] k).delta)
      (1/100000000) = true := by
    intro k hk
    interval_cases k
    show sqrtGT ((solveIter !![(4:ℚ),1;1,3] 1 ![1,2] 0).delta) (1/100000000) = true
    have h0 : solveIter !![(4:ℚ),1;1,3] 1 ![1,2] 0 = ⟨![0,0], ![1,2], ![1,2], ![1,2], 5, 0⟩ :=
      solve2_init
    rw [h0]
    exact solve2_guard0
  exact ⟨⟨le_refl 1, hdet, hg⟩,
    C10 !![(4:ℚ),1;1,3] ![1,2] none (1/100000000) 1 (le_refl 1) hdet hg⟩

/-! ## Helpers for C3 -/

lemma normSq_neg {n : ℕ} (v : Fin n → ℚ) : normSq (-v) = normSq v := by
  simp [normSq, Matrix.dotProduct_neg, Matrix.neg_dotProduct, neg_neg]

lemma sqrtGT_false_of (delta tol : ℚ) (hd : 0 ≤ delta) (h : sqrtGT delta tol = false) :
    0 ≤ tol ∧ delta ≤ tol ^ 2 := by
  rw [sqrtGT, if_neg (not_lt.mpr hd)] at h
  by_cases ht : tol < 0
  · rw [if_pos ht] at h
    exact absurd h (by simp)
  · rw [if_neg ht] at h
    push_neg at ht
    exact ⟨ht, not_lt.mp (of_decide_eq_false h)⟩

lemma solveM100_init :
    solveInit !![(1:ℚ)] !![100] ![1] = ⟨![0], ![1], ![1/100], ![1/100], 1/100, 0⟩ := by
  have hr : ![(1:ℚ)] - (!![(1:ℚ)]).mulVec 0 = ![1] := by
    rw [Matrix.mulVec_zero, sub_zero]
  have hz : npSolve !![(100:ℚ)] ![1] = ![1/100] := by
    rw [npSolve, matInv_fin_one]
    funext i
    fin_cases i
    simp [Matrix.mulVec, Matrix.dotProduct]
  have hdot : Matrix.dotProduct ![(1:ℚ)] ![1/100] = 1/100 := by
    simp [Matrix.dotProduct]
  ext i
  · rw [solveInit_x]
    fin_cases i
    simp
  · rw [solveInit_r, hr]
  · rw [solveInit_z, hr, hz]
  · rw [solveInit_d, solveInit_z, hr, hz]
  · rw [solveInit_delta, solveInit_z, solveInit_r, hr, hz, hdot]
  · rfl

/-- The run of `PCG.solve` with the badly scaled preconditioner `M = [[100]]`
and `tol = 1/10`: the preconditioned residual `√(rᵀM⁻¹r) = 1/10` already
fails the guard, so the loop exits via the tolerance test after zero
iterations with `x = 0`. -/
lemma solveM100_run :
    PCG_solve (some !![(1:ℚ)]) (some ![1]) (some !![100]) (some 10) (1/10) 1 =
      some ⟨none, some ![0], some 0⟩ := by
  rw [PCG_solve_eq_loop _ _ _ _ _ _ (by
    rw [Matrix.det_fin_one]
    norm_num)]
  simp only [Option.getD_some]
  rw [solveM100_init]
  have hcond : ¬ ((sqrtGT ((1:ℚ)/100) (1/10) = true) ∧ (0:ℕ) < 10) := by
    rintro ⟨h1, -⟩
    norm_num [sqrtGT] at h1
  simp only [solveLoop, if_neg hcond]

/-- C3 (counterexample): the claim is false for both solvers.
For `PCG.solve` on the well-conditioned SPD system `A = [[1]]`, `b = [1]`
with SPD preconditioner `M = [[100]]` and `tol = 1/10`, the loop exits via
the tolerance test after zero iterations (iters = 0 < maxiter), yet the
returned `x = 0` has residual norm `1 > tol`: the guard tests the
`M⁻¹`-weighted quantity `√(rᵀM⁻¹r) = 1/10`, not `‖Ax − b‖₂`.
For `pcg` on the SPD system `A = diag(1,6,8)`, `b = [1,2,1]` with
`rtol = 0`, `atol = 1`, the guard (which tests the residual of the
*previous* iterate, recomputed at the top of the loop body before `x` is
updated) fails at state 2, so the loop exits via the tolerance test and
returns `x₂` — whose own residual norm `√(735/704)` exceeds
`tol = max(0·‖b‖, 1) = 1`. -/
theorem C3_counterexample :
    (PCG_solve (some !![(1:ℚ)]) (some ![1]) (some !![100]) (some 10) (1/10) 1 =
        some ⟨none, some ![0], some 0⟩ ∧
      ((1/10 : ℚ) : ℝ) <
        Real.sqrt (normSq ((!![(1:ℚ)]).mulVec ![0] - ![1]) : ℚ)) ∧
    (pcgGuard 0 1 ![(1:ℚ),2,1]
        (pcgIter !![(1:ℚ),0,0;0,6,0;0,0,8] ![1,2,1] (1 : Matrix (Fin 3) (Fin 3) ℚ) 2) =
        false ∧
      pcg !![(1:ℚ),0,0;0,6,0;0,0,8] ![1,2,1] none 0 1 (1 : Matrix (Fin 3) (Fin 3) ℚ) 3 =
        some ((pcgIter !![(1:ℚ),0,0;0,6,0;0,0,8] ![1,2,1] (1 : Matrix (Fin 3) (Fin 3) ℚ) 2).x,
          (pcgIter !![(1:ℚ),0,0;0,6,0;0,0,8] ![1,2,1] (1 : Matrix (Fin 3) (Fin 3) ℚ) 2).C) ∧
      max (((0:ℚ) : ℝ) * Real.sqrt (normSq ![(1:ℚ),2,1] : ℚ)) ((1:ℚ) : ℝ) <
        Real.sqrt (normSq (![(1:ℚ),2,1] -
          (!![(1:ℚ),0,0;0,6,0;0,0,8]).mulVec
            ((pcgIter !![(1:ℚ),0,0;0,6,0;0,0,8] ![1,2,1]
              (1 : Matrix (Fin 3) (Fin 3) ℚ) 2).x)) : ℚ)) := by
  refine ⟨⟨solveM100_run, ?_⟩, pcg3_guard2, ?_, ?_⟩
  · have hres : (!![(1:ℚ)]).mulVec ![0] - ![1] = ![-1] := by
      funext i
      fin_cases i
      simp [Matrix.mulVec, Matrix.dotProduct]
    rw [hres, normSq_single]
    have h1 : ((-1 : ℚ) * -1 : ℚ) = 1 := by norm_num
    rw [h1]
    rw [show (((1:ℚ)) : ℝ) = 1 by norm_num]
    rw [Real.sqrt_one]
    norm_num
  · simp only [pcg, Option.getD_none]
    rw [pcgLoop_exit !![(1:ℚ),0,0;0,6,0;0,0,8] (pcg_invP 1) ![1,2,1] (10 * 3) 0 1 2 3
        (pcgInit !![(1:ℚ),0,0;0,6,0;0,0,8] ![1,2,1]) (by omega)
        (fun j hj => by
          interval_cases j
          · exact pcg3_guard0
          · exact pcg3_guard1)
        pcg3_guard2
        (fun j h0 h2 => by
          have hi : (pcgInit !![(1:ℚ),0,0;0,6,0;0,0,8] ![1,2,1]).i = 0 := rfl
          omega)]
    rfl
  · rw [pcg3_resid]
    have h0 : ((0:ℚ) : ℝ) * Real.sqrt (normSq ![(1:ℚ),2,1] : ℚ) = 0 := by
      rw [Rat.cast_zero, zero_mul]
    rw [h0]
    have h2 : max (0:ℝ) (((1:ℚ)) : ℝ) = 1 := by
      rw [show (((1:ℚ)) : ℝ) = 1 by norm_num]
      exact max_eq_right (by norm_num)
    rw [h2, Real.lt_sqrt (by norm_num : (0:ℝ) ≤ 1)]
    push_cast
    norm_num

/-- C3 (amended): what the tolerance exit guarantees.  For `pcg`: when the
loop exits via the tolerance test at state `k` (guard true before, false at
`k`, cap not hit on the way), the function returns `(x_k, C_k)` and the
quantity the guard actually tested — the stored residual, which for `k ≥ 1`
is the residual `b − A·x_{k−1}` of the *previous* iterate — satisfies
`‖·‖₂ ≤ max(rtol·‖b‖₂, atol)`; the residual of the returned `x_k` itself
may exceed the tolerance (see the counterexample).  For `PCG.solve`: on a
normal (no-exception) return with `maxiter ≥ 1`, the guard tested
`√(rᵀM⁻¹r)`; with the default `M = I` this equals `‖Ax − b‖₂` exactly, so
the exposed solution satisfies `‖A·x − b‖₂ ≤ tol`. -/
theorem C3_amended :
    (∀ (n p : ℕ) (A : Matrix (Fin n) (Fin n) ℚ) (b : Fin n → ℚ) (rtol atol : ℚ)
        (P : Matrix (Fin n) (Fin p) ℚ) (maxiter k : ℕ),
        (∀ j, j < k → pcgGuard rtol atol b (pcgIter A b P j) = true) →
        pcgGuard rtol atol b (pcgIter A b P k) = false →
        (∀ j, 0 < j → j ≤ k → j ≠ maxiter) →
        pcg A b (some maxiter) rtol atol P (k + 1) =
          some ((pcgIter A b P k).x, (pcgIter A b P k).C) ∧
        Real.sqrt (normSq ((pcgIter A b P k).r) : ℚ) ≤
          max ((rtol : ℝ) * Real.sqrt (normSq b : ℚ)) (atol : ℝ) ∧
        (∀ j : ℕ, (pcgIter A b P (j + 1)).r = b - A.mulVec ((pcgIter A b P j).x))) ∧
    (∀ (n : ℕ) (A : Matrix (Fin n) (Fin n) ℚ) (b : Fin n → ℚ) (maxiter : ℕ) (tol : ℚ)
        (fuel : ℕ) (res : SolveResult n) (xv : Fin n → ℚ),
        A.det ≠ 0 → 1 ≤ maxiter →
        PCG_solve (some A) (some b) none (some maxiter) tol fuel = some res →
        res.err = none → res.x = some xv →
        Real.sqrt (normSq (A.mulVec xv - b) : ℚ) ≤ (tol : ℝ)) := by
  constructor
  · intro n p A b rtol atol P maxiter k hg hk hcap
    refine ⟨?_, ?_, ?_⟩
    · simp only [pcg, Option.getD_some]
      rw [pcgLoop_exit A (pcg_invP P) b maxiter rtol atol k (k + 1) (pcgInit A b)
          (by omega) hg hk
          (fun j h0 h2 => by
            have hi : (pcgInit A b).i = 0 := rfl
            have := hcap j h0 h2
            omega)]
      rfl
    · rw [pcgGuard, Bool.eq_false_iff] at hk
      have := fun h => hk ((normGT_iff_real _ rtol atol _ (normSq_nonneg b)).mpr h)
      exact not_lt.mp this
    · intro j
      rw [pcgIter, Function.iterate_succ_apply', ← pcgIter, pcgStep_r]
  · intro n A b maxiter tol fuel res xv hdet hm hres herr hx
    rw [PCG_solve_eq_loop A b none (some maxiter) tol fuel hdet] at hres
    simp only [Option.getD_some, Option.getD_none] at hres
    have hi0 : (solveInit A (1 : Matrix (Fin n) (Fin n) ℚ) b).i = 0 := rfl
    obtain ⟨k, hgf, hklt, hxk, hik⟩ := solveLoop_some_none A 1 maxiter tol fuel
      (solveInit A 1 b) res hres herr (by omega)
    have hfold : (solveStep A (1 : Matrix (Fin n) (Fin n) ℚ))^[k] (solveInit A 1 b) =
        solveIter A 1 b k := rfl
    rw [hfold] at hgf hxk
    obtain ⟨hr, hz, hdelta⟩ := solveIter_id_inv A b k
    rw [hdelta] at hgf
    obtain ⟨htol, hle⟩ := sqrtGT_false_of _ _ (normSq_nonneg _) hgf
    have hxv : xv = (solveIter A 1 b k).x := by
      rw [hx] at hxk
      exact Option.some.inj hxk
    have hswap : normSq (A.mulVec xv - b) = normSq ((solveIter A 1 b k).r) := by
      rw [hxv, hr]
      have hneg : A.mulVec (solveIter A 1 b k).x - b =
          -(b - A.mulVec (solveIter A 1 b k).x) := by
        rw [neg_sub]
      rw [hneg, normSq_neg]
    calc Real.sqrt (normSq (A.mulVec xv - b) : ℚ) =
          Real.sqrt (normSq ((solveIter A 1 b k).r) : ℚ) := by rw [hswap]
      _ ≤ Real.sqrt ((tol ^ 2 : ℚ) : ℝ) := Real.sqrt_le_sqrt (by exact_mod_cast hle)
      _ = (tol : ℝ) := by
          push_cast
          exact Real.sqrt_sq (by exact_mod_cast htol)

/-- C3 (witness): the amended theorem applied on the 1-dimensional system.
The `pcg` half at `k = 2` (where the run exits via the tolerance test) and
the `PCG.solve` half on its convergent run with `M = I`. -/
theorem C3_witness :
    ((∀ j, j < 2 → pcgGuard (1/1000000) (1/1000000) ![(1:ℚ)]
        (pcgIter !![(1:ℚ)] ![1] (1 : Matrix (Fin 1) (Fin 1) ℚ) j) = true) ∧
      pcgGuard (1/1000000) (1/1000000) ![(1:ℚ)]
        (pcgIter !![(1:ℚ)] ![1] (1 : Matrix (Fin 1) (Fin 1) ℚ) 2) = false ∧
      (∀ j : ℕ, 0 < j → j ≤ 2 → j ≠ 10) ∧
      (!![(1:ℚ)]).det ≠ 0 ∧ (1:ℕ) ≤ 10 ∧
      PCG_solve (some !![(1:ℚ)]) (some ![1]) none (some 10) (1/100000000) 2 =
        some ⟨none, some ![1], some 1⟩) ∧
    ((pcg !![(1:ℚ)] ![1] (some 10) (1/1000000) (1/1000000)
          (1 : Matrix (Fin 1) (Fin 1) ℚ) 3 =
        some ((pcgIter !![(1:ℚ)] ![1] (1 : Matrix (Fin 1) (Fin 1) ℚ) 2).x,
          (pcgIter !![(1:ℚ)] ![1] (1 : Matrix (Fin 1) (Fin 1) ℚ) 2).C) ∧
      Real.sqrt (normSq ((pcgIter !![(1:ℚ)] ![1] (1 : Matrix (Fin 1) (Fin 1) ℚ) 2).r) : ℚ) ≤
        max (((1/1000000 : ℚ) : ℝ) * Real.sqrt (normSq ![(1:ℚ)] : ℚ))
          ((1/1000000 : ℚ) : ℝ) ∧
      (∀ j : ℕ, (pcgIter !![(1:ℚ)] ![1] (1 : Matrix (Fin 1) (Fin 1) ℚ) (j + 1)).r =
        ![1] - (!![(1:ℚ)]).mulVec
          ((pcgIter !![(1:ℚ)] ![1] (1 : Matrix (Fin 1) (Fin 1) ℚ) j).x))) ∧
    Real.sqrt (normSq ((!![(1:ℚ)]).mulVec ![1] - ![1]) : ℚ) ≤ ((1/100000000 : ℚ) : ℝ)) := by
  have hg : ∀ j, j < 2 → pcgGuard (1/1000000) (1/1000000) ![(1:ℚ)]
      (pcgIter !![(1:ℚ)] ![1] (1 : Matrix (Fin 1) (Fin 1) ℚ) j) = true := by
    intro j hj
    interval_cases j
    · exact pcg1_guard0
    · exact pcg1_guard1
  have hcap : ∀ j : ℕ, 0 < j → j ≤ 2 → j ≠ 10 := by omega
  have hdet : (!![(1:ℚ)]).det ≠ 0 := by
    rw [Matrix.det_fin_one]
    norm_num
  exact ⟨⟨hg, pcg1_guard2, hcap, hdet, by omega, solve1_run⟩,
    (C3_amended.1 1 1 !![(1:ℚ)] ![1] (1/1000000) (1/1000000) 1 10 2 hg pcg1_guard2 hcap),
    (C3_amended.2 1 !![(1:ℚ)] ![1] 10 (1/100000000) 2 ⟨none, some ![1], some 1⟩ ![1]
      hdet (by omega) solve1_run rfl rfl)⟩
